import Mathlib

/-!
Verification of the clamp-protocol plugin's specification against its source.

Two variants of the engine coexist in the repository and are embedded here:

* namespace `Widget` — the current implementation (`widget.cpp` together with
  the matching header variant): `Protocol` stores steps as a parameter array
  indexed by the `protocol_parameters` enum, the real-time path is
  `Component::getProtocolAmplitude`, and the preview path is
  `Protocol::dryrun`.
* namespace `Legacy` — the older implementation (the unnamed legacy source
  file): steps carry named fields, and `Protocol::run` is the
  SEGMENT/STEP/EXECUTE/END state machine replayed off-line.

C++ `double` values are modelled as `ℚ` (exact field arithmetic; the claims
under study are stated up to floating-point tolerance).  `int`/`size_t`
cursors that are only ever incremented from zero are modelled as `ℕ`.
C++ integer conversion from `double` truncates toward zero; `ratTrunc` below
reproduces that.  A `std::vector::at` call on an out-of-range index throws
`std::out_of_range`; where a claim depends on that behaviour it is modelled
by `CppOutcome.thrown`.  Division by zero on `ℚ` yields `0` rather than an
IEEE infinity or NaN, so no theorem in this file states an output value at an
input whose C++ evaluation divides by zero; theorems about such inputs only
expose the zero divisor and the control flow.
-/

/-- Truncation toward zero of a rational, as a C++ `double`-to-`int`
conversion behaves: floor for non-negative values, ceiling for negative
ones. -/
def ratTrunc (q : ℚ) : ℤ :=
  if 0 ≤ q then ⌊q⌋ else ⌈q⌉

/-- Result of running a C++ fragment that may throw `std::out_of_range`
(from `std::vector::at` / `std::array::at`). -/
inductive CppOutcome (α : Type) where
  | ok (val : α)
  | thrown
deriving DecidableEq, Repr

namespace Widget

/-- `ampMode_t` from the current header variant. -/
inductive ampMode_t where
  | VOLTAGE
  | CURRENT
deriving DecidableEq, Repr

/-- `stepType_t` from the current header variant (only STEP and RAMP). -/
inductive stepType_t where
  | STEP
  | RAMP
deriving DecidableEq, Repr

/-- `ProtocolStep` from the current header variant.  The C++ struct stores
the six numeric parameters in a `std::array<double, 6>` indexed by the
`protocol_parameters` enum; the array cells are flattened here into one named
field per enum constant, with the C++ zero initialisation as defaults. -/
structure ProtocolStep where
  ampMode : ampMode_t := .VOLTAGE
  stepType : stepType_t := .STEP
  STEP_DURATION : ℚ := 0
  DELTA_STEP_DURATION : ℚ := 0
  HOLDING_LEVEL_1 : ℚ := 0
  DELTA_HOLDING_LEVEL_1 : ℚ := 0
  HOLDING_LEVEL_2 : ℚ := 0
  DELTA_HOLDING_LEVEL_2 : ℚ := 0
deriving DecidableEq, Repr

instance : Inhabited ProtocolStep := ⟨{}⟩

/-- `ProtocolSegment`: a step vector plus `numSweeps` (default 1). -/
structure ProtocolSegment where
  steps : List ProtocolStep
  numSweeps : ℕ := 1
deriving DecidableEq, Repr

instance : Inhabited ProtocolSegment := ⟨⟨[], 1⟩⟩

/-- `Protocol`: the segment vector. -/
structure Protocol where
  segments : List ProtocolSegment
deriving DecidableEq, Repr

/-- `Protocol::numSegments()`. -/
def Protocol.numSegments (p : Protocol) : ℕ :=
  p.segments.length

/-- Total version of `segments.at(i)`; every use below is either guarded by
the source's own bounds check or reached only at indices proved in range. -/
def segAt (p : Protocol) (i : ℕ) : ProtocolSegment :=
  p.segments.getD i default

/-- Total version of `Protocol::getStep` (`segments.at(i).steps.at(k)`). -/
def stepAt (p : Protocol) (i k : ℕ) : ProtocolStep :=
  (segAt p i).steps.getD k default

/-- `Protocol::deleteStep` from the current implementation.  The source
copies the segment (`ProtocolSegment segment = getSegment(seg_id);`) and
erases from that local copy, so the protocol container itself is never
modified; and its guard uses `>` rather than `>=`, so `seg_id ==
segments.size()` slips past the guard and `segments.at(seg_id)` (evaluated
inside the guard's second operand) throws. -/
def Protocol.deleteStep (p : Protocol) (seg_id step_id : ℕ) : CppOutcome Protocol :=
  if seg_id > p.segments.length then .ok p
  else if h : seg_id < p.segments.length then
    if step_id > (p.segments.get ⟨seg_id, h⟩).steps.length then .ok p
    else
      -- ProtocolSegment segment = getSegment(seg_id);   (a copy)
      let segment := p.segments.get ⟨seg_id, h⟩
      -- segment.steps.erase(segment.steps.begin() + step_id);
      let _ := { segment with steps := segment.steps.eraseIdx step_id }
      -- the erase acted on the local copy only, so the container is unchanged
      .ok p
  else
    -- seg_id == segments.size(): `segments.at(seg_id)` in the guard throws
    .thrown

/-- Loop state of `Protocol::dryrun`: the three loop counters, the two local
time accumulators, and the two result vectors. -/
structure DryState where
  segmentIdx : ℕ
  sweepsIdx : ℕ
  stepIdx : ℕ
  time_elapsed_ms : ℚ
  current_time_ms : ℚ
  times : List ℚ
  volts : List ℚ
deriving DecidableEq, Repr

/-- `Protocol::dryrun`'s local variables at function entry. -/
def dryInit : DryState :=
  ⟨0, 0, 0, 0, 0, [], []⟩

/-- One step of the flattened triple-nested while loop of
`Protocol::dryrun`.  Because the C++ loop bodies contain no breaks, the three
nested `while` loops are equivalent to iterating this single transition:
when the outer guard fails the state is final, when a middle/inner guard
fails the corresponding counter increment at the end of the enclosing body
runs, and otherwise the innermost body runs.  Faithful to the source, the
body never updates `time_elapsed_ms` (the variable stays at its initial 0),
and the step-advance condition multiplies `DELTA_STEP_DURATION` by
`segmentIdx` rather than `sweepsIdx`.  The source's `default:` switch case
(early `return {}`) is unreachable here because `stepType_t` has only the
STEP and RAMP constructors. -/
def dryrunStep (p : Protocol) (period : ℚ) (s : DryState) : DryState :=
  if s.segmentIdx < p.segments.length then
    if s.sweepsIdx < (segAt p s.segmentIdx).numSweeps then
      if s.stepIdx < (segAt p s.segmentIdx).steps.length then
        let step := stepAt p s.segmentIdx s.stepIdx
        let voltage_mv : ℚ :=
          match step.stepType with
          | .STEP =>
              step.HOLDING_LEVEL_1
                + step.DELTA_HOLDING_LEVEL_1 * (s.sweepsIdx : ℚ)
          | .RAMP =>
              let y2 := step.HOLDING_LEVEL_2
                + step.DELTA_HOLDING_LEVEL_2 * (s.sweepsIdx : ℚ)
              let y1 := step.HOLDING_LEVEL_1
                + step.DELTA_HOLDING_LEVEL_1 * (s.sweepsIdx : ℚ)
              let max_time := step.STEP_DURATION
                + step.DELTA_STEP_DURATION * (s.sweepsIdx : ℚ)
              let slope := (y2 - y1) / max_time
              let time_ms := min max_time s.time_elapsed_ms
              slope * time_ms
        { s with
          times := s.times ++ [s.current_time_ms],
          volts := s.volts ++ [voltage_mv],
          current_time_ms := s.current_time_ms + period,
          stepIdx := s.stepIdx
            + (if s.time_elapsed_ms
                  > step.STEP_DURATION
                    + step.DELTA_STEP_DURATION * (s.segmentIdx : ℚ)
               then 1 else 0) }
      else { s with sweepsIdx := s.sweepsIdx + 1 }
    else { s with segmentIdx := s.segmentIdx + 1 }
  else s

/-- `n` iterations of the `Protocol::dryrun` loop from function entry. -/
def dryrunIter (p : Protocol) (period : ℚ) : ℕ → DryState
  | 0 => dryInit
  | n + 1 => dryrunStep p period (dryrunIter p period n)

/-- Negation of `dryrun`'s outer `while` guard: the loop has exited. -/
def dryrunFinished (p : Protocol) (s : DryState) : Prop :=
  ¬ s.segmentIdx < p.segments.length

/-- `Protocol::dryrun(period)` returns: some iteration count makes the outer
guard fail. -/
def dryrunTerminates (p : Protocol) (period : ℚ) : Prop :=
  ∃ n, dryrunFinished p (dryrunIter p period n)

/-- `data_token_t` of the current header variant, with the field values the
brace-initialiser in `getProtocolAmplitude` actually assigns: the struct has
seven members but only six initialisers, so `trial`/`segment`/`sweep`
receive `segmentIdx`/`sweepIdx`/`stepIdx` and `step` is value-initialised
to zero. -/
structure data_token_t where
  stepStart : ℤ
  time : ℤ
  value : ℚ
  trial : ℕ
  segment : ℕ
  sweep : ℕ
  step : ℕ
deriving DecidableEq, Repr

/-- The `Component` members read or written by `getProtocolAmplitude`,
plus the sample list written to the plotting FIFO (`tokens`) and the value
`readinput(0)` would return (`input`).  `paused` models
`setState(RT::State::PAUSE)`. -/
structure CompState where
  segmentIdx : ℕ
  sweepIdx : ℕ
  stepIdx : ℕ
  trialIdx : ℕ
  numTrials : ℕ
  reference_time : ℤ
  plotting : Bool
  paused : Bool
  input : ℚ
  tokens : List data_token_t
deriving DecidableEq, Repr

/-- A fresh `Component` run state with all cursors zeroed. -/
def comp0 (numTrials : ℕ) : CompState :=
  ⟨0, 0, 0, 0, numTrials, 0, false, false, 0, []⟩

/-- `Component::getProtocolAmplitude(current_time)` from the current
implementation, returning the computed amplitude and the updated member
state, or `thrown` where a `std::vector::at` inside `getSegment`/`getStep`
would be called out of range. -/
def getProtocolAmplitude (p : Protocol) (s : CompState) (current_time : ℤ) :
    CppOutcome (ℚ × CompState) :=
  if p.numSegments = 0 then .ok (0, s)
  else
    -- if (stepIdx >= protocol->getSegment(segmentIdx).steps.size())
    match p.segments.get? s.segmentIdx with
    | none => .thrown
    | some seg =>
      let s := if seg.steps.length ≤ s.stepIdx then
          { s with stepIdx := 0, segmentIdx := s.segmentIdx + 1,
                   reference_time := current_time }
        else s
      let s := if p.numSegments ≤ s.segmentIdx then
          { s with segmentIdx := 0, sweepIdx := s.sweepIdx + 1 }
        else s
      -- if (sweepIdx >= protocol->getSegment(segmentIdx).numSweeps)
      match p.segments.get? s.segmentIdx with
      | none => .thrown
      | some seg2 =>
        let s := if seg2.numSweeps ≤ s.sweepIdx then
            { s with trialIdx := s.trialIdx + 1, segmentIdx := 0 }
          else s
        if s.numTrials ≤ s.trialIdx then .ok (0, { s with paused := true })
        else
          -- auto& step = protocol->getStep(segmentIdx, stepIdx);
          match (p.segments.get? s.segmentIdx).bind
              (fun sg => sg.steps.get? s.stepIdx) with
          | none => .thrown
          | some step =>
            let time_elapsed_ms : ℚ :=
              ((current_time - s.reference_time : ℤ) : ℚ) * 1000
            let voltage_mv : ℚ :=
              match step.stepType with
              | .STEP =>
                  step.HOLDING_LEVEL_1
                    + step.DELTA_HOLDING_LEVEL_1 * (s.sweepIdx : ℚ)
              | .RAMP =>
                  let y2 := step.HOLDING_LEVEL_2
                    + step.DELTA_HOLDING_LEVEL_2 * (s.sweepIdx : ℚ)
                  let y1 := step.HOLDING_LEVEL_1
                    + step.DELTA_HOLDING_LEVEL_1 * (s.sweepIdx : ℚ)
                  let max_time := step.STEP_DURATION
                    + step.DELTA_STEP_DURATION * (s.sweepIdx : ℚ)
                  let slope := (y2 - y1) / max_time
                  let time_ms := min max_time time_elapsed_ms
                  slope * time_ms
            let s := { s with stepIdx := s.stepIdx
              + (if time_elapsed_ms
                    > step.STEP_DURATION
                      + step.DELTA_STEP_DURATION * (s.segmentIdx : ℚ)
                 then 1 else 0) }
            let s := if s.plotting then
                { s with tokens := s.tokens
                    ++ [⟨s.reference_time, current_time, s.input,
                         s.segmentIdx, s.sweepIdx, s.stepIdx, 0⟩] }
              else s
            .ok (voltage_mv, s)

/-- Drive `getProtocolAmplitude` once per tick at the given sequence of
`current_time` values, collecting the returned amplitudes. -/
def rtDrive (p : Protocol) : List ℤ → CompState → CppOutcome (List ℚ × CompState)
  | [], s => .ok ([], s)
  | t :: ts, s =>
    match getProtocolAmplitude p s t with
    | .thrown => .thrown
    | .ok (v, s') =>
      match rtDrive p ts s' with
      | .thrown => .thrown
      | .ok (vs, s'') => .ok (v :: vs, s'')

/-- The amplitude sequence produced by `rtDrive`, when no call threw. -/
def rtOutputs (p : Protocol) (ts : List ℤ) (s : CompState) : Option (List ℚ) :=
  match rtDrive p ts s with
  | .ok (vs, _) => some vs
  | .thrown => none

/-- The member state after `rtDrive`, when no call threw. -/
def rtFinal (p : Protocol) (ts : List ℤ) (s : CompState) : Option CompState :=
  match rtDrive p ts s with
  | .ok (_, s') => some s'
  | .thrown => none

/-- `QString::number(step.ampMode)` writes the enum's integer value. -/
def ampModeToInt : ampMode_t → ℤ
  | .VOLTAGE => 0
  | .CURRENT => 1

/-- `QString::number(step.stepType)` writes the enum's integer value. -/
def stepTypeToInt : stepType_t → ℤ
  | .STEP => 0
  | .RAMP => 1

/-- `static_cast<ampMode_t>(attribute.toInt())` in `fromDoc`. -/
def intToAmpMode (n : ℤ) : ampMode_t :=
  if n = 1 then .CURRENT else .VOLTAGE

/-- `static_cast<stepType_t>(attribute.toInt())` in `fromDoc`. -/
def intToStepType (n : ℤ) : stepType_t :=
  if n = 1 then .RAMP else .STEP

/-- A `<step>` element of the protocol document.  Attribute values are
written with `QString::number` and parsed back with `toInt`/`toDouble`; the
decimal-string layer carries the numbers exactly for the purposes of this
development (the claims are stated up to string round-trip tolerance), so
attributes are modelled by their numeric values. -/
structure StepNode where
  stepNumber : ℕ
  ampMode : ℤ
  stepType : ℤ
  stepDuration : ℚ
  deltaStepDuration : ℚ
  holdingLevel1 : ℚ
  deltaHoldingLevel1 : ℚ
  holdingLevel2 : ℚ
  deltaHoldingLevel2 : ℚ
deriving DecidableEq, Repr

/-- A `<segment>` element: its `numSweeps` attribute and step children. -/
structure SegmentNode where
  numSweeps : ℕ
  steps : List StepNode
deriving DecidableEq, Repr

/-- The document under the `Clamp-Suite-Protocol-v2.0` root element. -/
structure ProtocolDoc where
  segments : List SegmentNode
deriving DecidableEq, Repr

/-- `Protocol::stepToNode(doc, seg_id, stepNum)`. -/
def Protocol.stepToNode (p : Protocol) (seg_id stepNum : ℕ) : StepNode :=
  let step := stepAt p seg_id stepNum
  { stepNumber := stepNum
    ampMode := ampModeToInt step.ampMode
    stepType := stepTypeToInt step.stepType
    stepDuration := step.STEP_DURATION
    deltaStepDuration := step.DELTA_STEP_DURATION
    holdingLevel1 := step.HOLDING_LEVEL_1
    deltaHoldingLevel1 := step.DELTA_HOLDING_LEVEL_1
    holdingLevel2 := step.HOLDING_LEVEL_2
    deltaHoldingLevel2 := step.DELTA_HOLDING_LEVEL_2 }

/-- `Protocol::segmentToNode(doc, seg_id)`. -/
def Protocol.segmentToNode (p : Protocol) (seg_id : ℕ) : SegmentNode :=
  { numSweeps := (segAt p seg_id).numSweeps
    steps := (List.range (segAt p seg_id).steps.length).map
      (fun i => p.stepToNode seg_id i) }

/-- `Protocol::toDoc()`.  The C++ stores the built document into the
`protocolDoc` member; the document itself is returned here. -/
def Protocol.toDoc (p : Protocol) : ProtocolDoc :=
  { segments := (List.range p.segments.length).map
      (fun i => p.segmentToNode i) }

/-- The step iteration of `Protocol::fromDoc`, over one segment's step
children.  `steps` is the step vector of the segment at `segmentCount` in
the protocol being rebuilt.  Each pass executes
`ProtocolStep step = getStep(segmentCount, stepCount);` — `getStep` calls
`steps.at(stepCount)`, which throws because the rebuilt segment's step
vector is empty (nothing ever pushes into it), and the declaration copies
the step by value, so the attribute assignments that follow would only
mutate the local copy. -/
def fromDocStepLoop (steps : List ProtocolStep) (stepCount : ℕ) :
    List StepNode → CppOutcome Unit
  | [] => .ok ()
  | node :: rest =>
    match steps.get? stepCount with
    | none => .thrown
    | some s0 =>
      -- the attribute writes land on the value copy `step` and are lost
      let _ := ({ s0 with
        ampMode := intToAmpMode node.ampMode
        stepType := intToStepType node.stepType
        STEP_DURATION := node.stepDuration
        DELTA_STEP_DURATION := node.deltaStepDuration
        HOLDING_LEVEL_1 := node.holdingLevel1
        DELTA_HOLDING_LEVEL_1 := node.deltaHoldingLevel1
        HOLDING_LEVEL_2 := node.holdingLevel2
        DELTA_HOLDING_LEVEL_2 := node.deltaHoldingLevel2 } : ProtocolStep)
      fromDocStepLoop steps (stepCount + 1) rest

/-- The segment iteration of `Protocol::fromDoc`: `segments.emplace_back()`
followed by the `numSweeps` attribute assignment and the step loop. -/
def fromDocSegLoop (acc : List ProtocolSegment) (segmentCount : ℕ) :
    List SegmentNode → CppOutcome (List ProtocolSegment)
  | [] => .ok acc
  | node :: rest =>
    let acc := acc ++ [{ steps := [], numSweeps := node.numSweeps }]
    match fromDocStepLoop ((acc.getD segmentCount default).steps) 0 node.steps with
    | .thrown => .thrown
    | .ok _ => fromDocSegLoop acc (segmentCount + 1) rest

/-- `Protocol::fromDoc(doc)`: clears the container and rebuilds it from the
document, or throws out of the step loop. -/
def Protocol.fromDoc (doc : ProtocolDoc) : CppOutcome Protocol :=
  match fromDocSegLoop [] 0 doc.segments with
  | .thrown => .thrown
  | .ok segs => .ok ⟨segs⟩

end Widget

namespace Legacy

/-- `ampMode_t` of the legacy variant. -/
inductive ampMode_t where
  | VOLTAGE
  | CURRENT
deriving DecidableEq, Repr

/-- `stepType_t` of the legacy variant (STEP, RAMP, TRAIN, CURVE). -/
inductive stepType_t where
  | STEP
  | RAMP
  | TRAIN
  | CURVE
deriving DecidableEq, Repr

/-- Legacy `ProtocolStep` with its named `double` fields (`pulseRate` is an
`int`), zero-initialised by default. -/
structure ProtocolStep where
  ampMode : ampMode_t := .VOLTAGE
  stepType : stepType_t := .STEP
  stepDuration : ℚ := 0
  deltaStepDuration : ℚ := 0
  holdingLevel1 : ℚ := 0
  deltaHoldingLevel1 : ℚ := 0
  holdingLevel2 : ℚ := 0
  deltaHoldingLevel2 : ℚ := 0
  pulseWidth : ℚ := 0
  pulseRate : ℤ := 0
deriving DecidableEq, Repr

instance : Inhabited ProtocolStep := ⟨{}⟩

/-- Legacy `ProtocolSegment`. -/
structure ProtocolSegment where
  steps : List ProtocolStep
  numSweeps : ℕ := 1
deriving DecidableEq, Repr

instance : Inhabited ProtocolSegment := ⟨⟨[], 1⟩⟩

/-- Legacy `Protocol`. -/
structure Protocol where
  segments : List ProtocolSegment
deriving DecidableEq, Repr

/-- Total version of `segments.at(i)`; uses below are either at indices the
run-machine invariants prove in range or at concrete in-range indices. -/
def segAt (p : Protocol) (i : ℕ) : ProtocolSegment :=
  p.segments.getD i default

/-- `Protocol::numSweeps(seg_id)`. -/
def numSweepsD (p : Protocol) (i : ℕ) : ℕ :=
  (segAt p i).numSweeps

/-- `Protocol::numSteps(seg_id)` (the segment's step count). -/
def numStepsD (p : Protocol) (i : ℕ) : ℕ :=
  (segAt p i).steps.length

/-- Total version of `Protocol::getStep(segment, step)`. -/
def getStepD (p : Protocol) (i k : ℕ) : ProtocolStep :=
  (segAt p i).steps.getD k default

/-- `Protocol::segmentLength(seg_id, period, withSweeps)`: sums the step
durations, then executes `time *= segments.at(seg_id).numSweeps *
withSweeps;` — the C++ `bool` converts to `0` or `1`, so a `false`
`withSweeps` multiplies the sum by zero — and finally truncates
`time / period` into the `int` return value. -/
def segmentLength (p : Protocol) (seg_id : ℕ) (period : ℚ) (withSweeps : Bool) : ℤ :=
  let time : ℚ := ((segAt p seg_id).steps.map (fun step => step.stepDuration)).sum
  let time := time * ((numSweepsD p seg_id * (if withSweeps then 1 else 0) : ℕ) : ℚ)
  ratTrunc (time / period)

/-- `protocolMode_t` as declared locally inside `Protocol::run`. -/
inductive protocolMode_t where
  | SEGMENT
  | STEP
  | EXECUTE
  | END
deriving DecidableEq, Repr

/-- The local variables of `Protocol::run(period)`, including the two result
vectors. -/
structure RunState where
  protocolMode : protocolMode_t
  time : ℚ
  output : ℚ
  stepType : stepType_t
  segmentIdx : ℕ
  sweepIdx : ℕ
  stepIdx : ℕ
  sweeps : ℕ
  steps : ℕ
  stepTime : ℤ
  stepEndTime : ℤ
  stepOutput : ℚ
  rampIncrement : ℚ
  pulseWidth : ℚ
  pulseRate : ℤ
  timeVector : List ℚ
  outputVector : List ℚ
deriving DecidableEq, Repr

/-- `Protocol::run`'s locals at function entry (`protocolMode = SEGMENT`). -/
def runInit : RunState :=
  { protocolMode := .SEGMENT, time := 0, output := 0, stepType := .STEP
    segmentIdx := 0, sweepIdx := 0, stepIdx := 0, sweeps := 0, steps := 0
    stepTime := 0, stepEndTime := 0, stepOutput := 0, rampIncrement := 0
    pulseWidth := 0, pulseRate := 0, timeVector := [], outputVector := [] }

/-- The `if (protocolMode == SEGMENT)` block of `Protocol::run`: cache the
segment's sweep and step counts and move on to step initialisation. -/
def segPhase (p : Protocol) (s : RunState) : RunState :=
  match s.protocolMode with
  | .SEGMENT =>
    { s with sweeps := numSweepsD p s.segmentIdx,
             steps := numStepsD p s.segmentIdx,
             protocolMode := .STEP }
  | _ => s

/-- The `if (protocolMode == STEP)` block of `Protocol::run`: fetch the step,
derive `stepEndTime` (the `double` expression `dur/period - 1` truncated into
an `int`), `stepOutput`, and the per-type constants, and move on to EXECUTE.
The RAMP/CURVE slope divides by `stepEndTime` with no zero check (ℚ division
returns 0 there; C++ would produce an IEEE infinity or NaN). -/
def stepPhase (p : Protocol) (period : ℚ) (s : RunState) : RunState :=
  match s.protocolMode with
  | .STEP =>
    let step := getStepD p s.segmentIdx s.stepIdx
    let stepEndTime : ℤ :=
      ratTrunc ((step.stepDuration + step.deltaStepDuration * (s.sweepIdx : ℚ))
        / period - 1)
    let stepOutput : ℚ :=
      step.holdingLevel1 + step.deltaHoldingLevel1 * (s.sweepIdx : ℚ)
    let h2 : ℚ :=
      step.holdingLevel2 + step.deltaHoldingLevel2 * (s.sweepIdx : ℚ)
    -- the `if (RAMP) ... else if (TRAIN) ...` / `if (CURVE) ...` chain,
    -- written as one dispatch on the step type
    let rampIncrement : ℚ :=
      match step.stepType with
      | .RAMP => (h2 - stepOutput) / (stepEndTime : ℚ)
      | .CURVE => (h2 - stepOutput) / (stepEndTime : ℚ)
      | _ => s.rampIncrement
    let pulseWidth : ℚ :=
      match step.stepType with
      | .TRAIN => step.pulseWidth / period
      | _ => s.pulseWidth
    let pulseRate : ℤ :=
      match step.stepType with
      | .TRAIN => ratTrunc ((step.pulseRate : ℚ) / (period * 1000))
      | _ => s.pulseRate
    { s with stepType := step.stepType, stepTime := 0,
             stepEndTime := stepEndTime, stepOutput := stepOutput,
             rampIncrement := rampIncrement, pulseWidth := pulseWidth,
             pulseRate := pulseRate, protocolMode := .EXECUTE }
  | _ => s

/-- The `if (protocolMode == EXECUTE)` block of `Protocol::run`: evaluate the
waveform from the cached per-step constants, advance `stepTime`, and on step
completion advance the cursors innermost-first.  `stepTime % pulseRate` is
the C++ truncated-division remainder (`Int.tmod`; C++ `%` by zero is
undefined behaviour and no theorem below evaluates a TRAIN output). -/
def execPhase (p : Protocol) (s : RunState) : RunState :=
  match s.protocolMode with
  | .EXECUTE =>
    let output : ℚ :=
      match s.stepType with
      | .STEP => s.stepOutput
      | .RAMP => s.stepOutput + (s.stepTime : ℚ) * s.rampIncrement
      | .TRAIN =>
          if ((Int.tmod s.stepTime s.pulseRate : ℤ) : ℚ) < s.pulseWidth
          then s.stepOutput else 0
      | .CURVE =>
          if 0 ≤ s.rampIncrement then
            s.stepOutput
              + s.rampIncrement * (s.stepTime : ℚ) * (s.stepTime : ℚ)
                / (s.stepEndTime : ℚ)
          else
            s.stepOutput + 2 * s.rampIncrement * (s.stepTime : ℚ)
              - s.rampIncrement * (s.stepTime : ℚ) * (s.stepTime : ℚ)
                / (s.stepEndTime : ℚ)
    let stepTime := s.stepTime + 1
    if stepTime > s.stepEndTime then
      let stepIdx := s.stepIdx + 1
      if stepIdx = s.steps then
        let sweepIdx := s.sweepIdx + 1
        if sweepIdx = s.sweeps then
          let segmentIdx := s.segmentIdx + 1
          if p.segments.length ≤ segmentIdx then
            { s with output := output, stepTime := stepTime, stepIdx := 0,
                     sweepIdx := 0, segmentIdx := segmentIdx,
                     protocolMode := .END }
          else
            { s with output := output, stepTime := stepTime, stepIdx := 0,
                     sweepIdx := 0, segmentIdx := segmentIdx,
                     protocolMode := .SEGMENT }
        else
          { s with output := output, stepTime := stepTime, stepIdx := 0,
                   sweepIdx := sweepIdx, protocolMode := .STEP }
      else
        { s with output := output, stepTime := stepTime, stepIdx := stepIdx,
                 protocolMode := .STEP }
    else { s with output := output, stepTime := stepTime }
  | _ => s

/-- One iteration of the `while (protocolMode != END)` loop of
`Protocol::run`: the three sequential mode blocks, then the push of the
current `time`/`output` sample and the time update.  Iterating from an END
state is the identity (the loop has exited). -/
def runTick (p : Protocol) (period : ℚ) (s : RunState) : RunState :=
  match s.protocolMode with
  | .END => s
  | _ =>
    let s' := execPhase p (stepPhase p period (segPhase p s))
    { s' with timeVector := s'.timeVector ++ [s'.time],
              outputVector := s'.outputVector ++ [s'.output],
              time := s'.time + period }

/-- `n` iterations of the `Protocol::run` loop from function entry. -/
def runN (p : Protocol) (period : ℚ) : ℕ → RunState
  | 0 => runInit
  | n + 1 => runTick p period (runN p period n)

/-- The step visited (i.e. step-initialised) during loop iteration `n`, if
iteration `n` performs a step initialisation: the iteration enters the
`if (protocolMode == STEP)` block exactly when the mode after the SEGMENT
block is STEP, and the cursors at that moment name the visited step. -/
def visitAt (p : Protocol) (period : ℚ) (n : ℕ) : Option (ℕ × ℕ × ℕ) :=
  let s := segPhase p (runN p period n)
  if s.protocolMode = .STEP then some (s.segmentIdx, s.sweepIdx, s.stepIdx)
  else none

/-- The list of steps visited during the first `n` loop iterations. -/
def visits (p : Protocol) (period : ℚ) : ℕ → List (ℕ × ℕ × ℕ)
  | 0 => []
  | n + 1 => visits p period n ++ (visitAt p period n).toList

/-- Modelled from the spec: the order in which the specification requires
every step of every sweep of every segment to be visited exactly once —
segment-major, sweep-next, step-minor. -/
def specVisitOrder (p : Protocol) : List (ℕ × ℕ × ℕ) :=
  (List.range p.segments.length).flatMap (fun i =>
    (List.range (numSweepsD p i)).flatMap (fun j =>
      (List.range (numStepsD p i)).map (fun k => (i, j, k))))

end Legacy

namespace Widget

/-- The cursor triple of a `Component` state. -/
def cursorOf (s : CompState) : ℕ × ℕ × ℕ :=
  (s.segmentIdx, s.sweepIdx, s.stepIdx)

/-- One segment, one sweep, one RAMP step from 0 mV to 10 mV over 2000 ms. -/
def exRamp : Protocol :=
  ⟨[⟨[{ stepType := .RAMP, STEP_DURATION := 2000, HOLDING_LEVEL_2 := 10 }], 1⟩]⟩

/-- Two segments: segment 0 has two sweeps of one 500 ms STEP step, segment 1
has one sweep of one 500 ms STEP step. -/
def exTwoSeg : Protocol :=
  ⟨[⟨[{ STEP_DURATION := 500, HOLDING_LEVEL_1 := 1 }], 2⟩,
    ⟨[{ STEP_DURATION := 500, HOLDING_LEVEL_1 := 3 }], 1⟩]⟩

/-- One RAMP step holding 5 mV at both ends (`y1 = y2 = 5`) for 1000 ms. -/
def exFlatRamp : Protocol :=
  ⟨[⟨[{ stepType := .RAMP, STEP_DURATION := 1000,
        HOLDING_LEVEL_1 := 5, HOLDING_LEVEL_2 := 5 }], 1⟩]⟩

/-- One segment containing one default-initialised step. -/
def exOneStep : Protocol :=
  ⟨[⟨[{}], 1⟩]⟩

/-- One segment, one sweep, one STEP step of 1 ms duration. -/
def exUnitStep : Protocol :=
  ⟨[⟨[{ STEP_DURATION := 1 }], 1⟩]⟩

end Widget

namespace Legacy

/-- The cursor triple of a run state. -/
def cursor (s : RunState) : ℕ × ℕ × ℕ :=
  (s.segmentIdx, s.sweepIdx, s.stepIdx)

/-- The §8 concrete scenario: one segment, two sweeps, one STEP step with
`stepDuration = 10` ms, `holdingLevel1 = 5.0`, `deltaHoldingLevel1 = 1.0`. -/
def exSweepStep : Protocol :=
  ⟨[⟨[{ stepDuration := 10, holdingLevel1 := 5, deltaHoldingLevel1 := 1 }], 2⟩]⟩

/-- One segment with two sweeps of a single 10 ms step. -/
def exTenDur : Protocol :=
  ⟨[⟨[{ stepDuration := 10 }], 2⟩]⟩

/-- One segment, one sweep, one RAMP step whose duration equals one period:
`stepEndTime = 10/10 - 1 = 0` at `period = 10`, here with duration 1 ms and
period 1 ms. -/
def exUnitRamp : Protocol :=
  ⟨[⟨[{ stepType := .RAMP, stepDuration := 1 }], 1⟩]⟩

/-- The control-relevant components of a run state: the mode, the three
cursors, the cached per-segment counts, and the step timing counters.  The
remaining `RunState` fields (outputs, caches for the waveform formulas, and
the trace vectors) do not influence sequencing. -/
structure Ctrl where
  protocolMode : protocolMode_t
  segmentIdx : ℕ
  sweepIdx : ℕ
  stepIdx : ℕ
  sweeps : ℕ
  steps : ℕ
  stepTime : ℤ
  stepEndTime : ℤ
deriving DecidableEq, Repr

/-- Project a run state onto its control components. -/
def ctrl (s : RunState) : Ctrl :=
  ⟨s.protocolMode, s.segmentIdx, s.sweepIdx, s.stepIdx, s.sweeps, s.steps,
   s.stepTime, s.stepEndTime⟩

/-- The `stepEndTime` value the STEP-initialisation block computes for the
step at cursor `(i, j, k)`. -/
def endTimeOf (p : Protocol) (period : ℚ) (i j k : ℕ) : ℤ :=
  ratTrunc (((getStepD p i k).stepDuration
    + (getStepD p i k).deltaStepDuration * (j : ℚ)) / period - 1)

/-- The loop is about to run the STEP-initialisation block for cursor
`(i, j, k)`, with the segment-level caches already valid. -/
def EntryStep (p : Protocol) (c : Ctrl) (i j k : ℕ) : Prop :=
  c.protocolMode = .STEP ∧ c.segmentIdx = i ∧ c.sweepIdx = j ∧ c.stepIdx = k ∧
  c.sweeps = numSweepsD p i ∧ c.steps = numStepsD p i

/-- The loop is about to run the SEGMENT-initialisation block for segment
`i` (cursors reset to the segment start). -/
def EntrySeg (p : Protocol) (c : Ctrl) (i : ℕ) : Prop :=
  c.protocolMode = .SEGMENT ∧ c.segmentIdx = i ∧ c.sweepIdx = 0 ∧ c.stepIdx = 0

/-- The loop iteration starting from `c` will step-initialise `(i, j, k)`
(either directly or after the SEGMENT block in the same iteration). -/
def Entry (p : Protocol) (c : Ctrl) (i j k : ℕ) : Prop :=
  EntryStep p c i j k ∨ (EntrySeg p c i ∧ j = 0 ∧ k = 0)

/-- The cursor `(i, j, k)` is within the protocol's bounds. -/
def Valid (p : Protocol) (i j k : ℕ) : Prop :=
  i < p.segments.length ∧ j < numSweepsD p i ∧ k < numStepsD p i

/-- In-EXECUTE control state for cursor `(i, j, k)` at step time `t` with
step end time `E`. -/
def ExecSt (p : Protocol) (c : Ctrl) (i j k : ℕ) (t E : ℤ) : Prop :=
  c.protocolMode = .EXECUTE ∧ c.segmentIdx = i ∧ c.sweepIdx = j ∧
  c.stepIdx = k ∧ c.sweeps = numSweepsD p i ∧ c.steps = numStepsD p i ∧
  c.stepTime = t ∧ c.stepEndTime = E

/-- Control state after the last segment of the protocol has completed. -/
def AfterSegment (p : Protocol) (c : Ctrl) (i : ℕ) : Prop :=
  if i + 1 < p.segments.length then EntrySeg p c (i + 1)
  else c.protocolMode = .END

/-- Control state after sweep `j` of segment `i` has completed. -/
def AfterSweep (p : Protocol) (c : Ctrl) (i j : ℕ) : Prop :=
  if j + 1 < numSweepsD p i then EntryStep p c i (j + 1) 0
  else AfterSegment p c i

/-- Control state after the runner has finished executing step `(i, j, k)`:
the innermost-first successor — the next step of the same sweep if one
remains, else the next sweep, else the next segment, else END. -/
def AfterStep (p : Protocol) (c : Ctrl) (i j k : ℕ) : Prop :=
  if k + 1 < numStepsD p i then EntryStep p c i j (k + 1)
  else AfterSweep p c i j

end Legacy

/-- C1: the dry-run trace and the real-time path diverge on the code.  At the
one-RAMP protocol `exRamp` with a 1000 ms period (the real-time driver's
`current_time` advances by 1 per tick and `getProtocolAmplitude` scales the
difference by 1e3), the dry run emits 0 for its first two samples — its
`time_elapsed_ms` variable is never updated, so every RAMP sample is
`slope * min(max_time, 0) = 0` — while the driven real-time path emits 5 at
the second tick. -/
theorem dryrun_rt_diverge_on_ramp :
    (Widget.dryrunIter Widget.exRamp 1000 2).volts = [0, 0] ∧
    Widget.rtOutputs Widget.exRamp [0, 1] (Widget.comp0 1) = some [0, 5] ∧
    ([0, 0] : List ℚ) ≠ [0, 5] := by
  norm_num [Widget.dryrunIter, Widget.dryrunStep, Widget.dryInit, Widget.exRamp,
    Widget.segAt, Widget.stepAt, Widget.rtOutputs, Widget.rtDrive,
    Widget.getProtocolAmplitude, Widget.comp0, Widget.Protocol.numSegments,
    min_def]

/-- C3: the RAMP evaluator of the current implementation computes
`slope * min(max_time, elapsed)` and drops the `y1` offset: at a flat ramp
with `holdingLevel1 = holdingLevel2 = 5` and `t = 0` the claim requires the
output `y1 = 5`, but both the real-time path and the dry run output 0. -/
theorem ramp_output_misses_holding_offset :
    Widget.rtOutputs Widget.exFlatRamp [0] (Widget.comp0 1) = some [0] ∧
    (Widget.dryrunIter Widget.exFlatRamp 1000 1).volts = [0] ∧
    (Widget.stepAt Widget.exFlatRamp 0 0).HOLDING_LEVEL_1 = 5 ∧
    (0 : ℚ) ≠ 5 := by
  norm_num [Widget.dryrunIter, Widget.dryrunStep, Widget.dryInit, Widget.exFlatRamp,
    Widget.segAt, Widget.stepAt, Widget.rtOutputs, Widget.rtDrive,
    Widget.getProtocolAmplitude, Widget.comp0, Widget.Protocol.numSegments,
    min_def]

/-- C4: the round trip `fromDoc(toDoc(p))` throws for any protocol with at
least one step: `fromDoc` never adds steps to the segments it rebuilds, so
`getStep` indexes an empty step vector and `steps.at(stepCount)` throws. -/
theorem fromDoc_toDoc_throws_on_step :
    Widget.Protocol.fromDoc (Widget.Protocol.toDoc Widget.exOneStep) = .thrown ∧
    Widget.exOneStep.segments.length = 1 ∧
    (Widget.segAt Widget.exOneStep 0).steps.length = 1 := by
  decide

/-- C7: `deleteStep` with valid indices erases from a local copy of the
segment and leaves the protocol unchanged (the step count does not
decrease), and `seg_id == segments.size()` passes the `>` guard and throws
instead of being a no-op. -/
theorem deleteStep_no_op_on_valid_index :
    Widget.Protocol.deleteStep Widget.exOneStep 0 0 = .ok Widget.exOneStep ∧
    (Widget.segAt Widget.exOneStep 0).steps.length = 1 ∧
    Widget.Protocol.deleteStep Widget.exOneStep 1 0 = .thrown := by
  decide

/-- C9: `segmentLength` multiplies the summed durations by
`numSweeps * withSweeps`, and the C++ `bool` converts to 0 when `withSweeps`
is false, so the un-multiplied total the claim requires (10 ticks here) is
replaced by 0; the `withSweeps = true` path returns the multiplied total. -/
theorem segmentLength_zero_when_withSweeps_false :
    Legacy.segmentLength Legacy.exTenDur 0 1 false = 0 ∧
    Legacy.segmentLength Legacy.exTenDur 0 1 true = 20 ∧
    ((Legacy.segAt Legacy.exTenDur 0).steps.map (fun st => st.stepDuration)).sum
      = 10 ∧
    (0 : ℤ) ≠ 10 := by
  norm_num [Legacy.segmentLength, Legacy.exTenDur, Legacy.segAt, Legacy.numSweepsD,
    ratTrunc]

/-- C6 counterexample: at a RAMP step whose duration equals one sample
period, step initialisation computes `stepEndTime = 0` (the value the
RAMP slope is divided by) and still sets `protocolMode = EXECUTE` — the
degenerate condition is not detected and EXECUTE is entered. -/
theorem degenerate_step_enters_execute_cex :
    (Legacy.stepPhase Legacy.exUnitRamp 1
        (Legacy.segPhase Legacy.exUnitRamp Legacy.runInit)).protocolMode
      = .EXECUTE ∧
    (Legacy.stepPhase Legacy.exUnitRamp 1
        (Legacy.segPhase Legacy.exUnitRamp Legacy.runInit)).stepEndTime = 0 := by
  norm_num [Legacy.stepPhase, Legacy.segPhase, Legacy.runInit, Legacy.exUnitRamp,
    Legacy.getStepD, Legacy.segAt, Legacy.numSweepsD, Legacy.numStepsD, ratTrunc]

/-- Explicit evaluation of the first 19 loop iterations of the legacy run
machine on the concrete scenario protocol. -/
lemma runN_exSweepStep_19 :
    Legacy.runN Legacy.exSweepStep 1 19 = { protocolMode := .EXECUTE, time := 19, output := 6, stepType := .STEP, segmentIdx := 0, sweepIdx := 1, stepIdx := 0, sweeps := 2, steps := 1, stepTime := 9, stepEndTime := 9, stepOutput := 6, rampIncrement := 0, pulseWidth := 0, pulseRate := 0, timeVector := [0, 1, 2, 3, 4, 5, 6, 7, 8, 9, 10, 11, 12, 13, 14, 15, 16, 17, 18], outputVector := [5, 5, 5, 5, 5, 5, 5, 5, 5, 5, 6, 6, 6, 6, 6, 6, 6, 6, 6] } := by
  have h1 : Legacy.runN Legacy.exSweepStep 1 1 = { protocolMode := .EXECUTE, time := 1, output := 5, stepType := .STEP, segmentIdx := 0, sweepIdx := 0, stepIdx := 0, sweeps := 2, steps := 1, stepTime := 1, stepEndTime := 9, stepOutput := 5, rampIncrement := 0, pulseWidth := 0, pulseRate := 0, timeVector := [0], outputVector := [5] } := by
    show Legacy.runTick Legacy.exSweepStep 1 Legacy.runInit = _
    simp only [Legacy.runInit, Legacy.runTick, Legacy.segPhase, Legacy.stepPhase, Legacy.execPhase,
      Legacy.exSweepStep, Legacy.getStepD, Legacy.segAt, Legacy.numSweepsD,
      Legacy.numStepsD, ratTrunc]
    norm_num
  have h2 : Legacy.runN Legacy.exSweepStep 1 2 = { protocolMode := .EXECUTE, time := 2, output := 5, stepType := .STEP, segmentIdx := 0, sweepIdx := 0, stepIdx := 0, sweeps := 2, steps := 1, stepTime := 2, stepEndTime := 9, stepOutput := 5, rampIncrement := 0, pulseWidth := 0, pulseRate := 0, timeVector := [0, 1], outputVector := [5, 5] } := by
    show Legacy.runTick Legacy.exSweepStep 1 (Legacy.runN Legacy.exSweepStep 1 1) = _
    rw [h1]
    simp only [Legacy.runTick, Legacy.segPhase, Legacy.stepPhase, Legacy.execPhase,
      Legacy.exSweepStep, Legacy.getStepD, Legacy.segAt, Legacy.numSweepsD,
      Legacy.numStepsD, ratTrunc]
    norm_num
  have h3 : Legacy.runN Legacy.exSweepStep 1 3 = { protocolMode := .EXECUTE, time := 3, output := 5, stepType := .STEP, segmentIdx := 0, sweepIdx := 0, stepIdx := 0, sweeps := 2, steps := 1, stepTime := 3, stepEndTime := 9, stepOutput := 5, rampIncrement := 0, pulseWidth := 0, pulseRate := 0, timeVector := [0, 1, 2], outputVector := [5, 5, 5] } := by
    show Legacy.runTick Legacy.exSweepStep 1 (Legacy.runN Legacy.exSweepStep 1 2) = _
    rw [h2]
    simp only [Legacy.runTick, Legacy.segPhase, Legacy.stepPhase, Legacy.execPhase,
      Legacy.exSweepStep, Legacy.getStepD, Legacy.segAt, Legacy.numSweepsD,
      Legacy.numStepsD, ratTrunc]
    norm_num
  have h4 : Legacy.runN Legacy.exSweepStep 1 4 = { protocolMode := .EXECUTE, time := 4, output := 5, stepType := .STEP, segmentIdx := 0, sweepIdx := 0, stepIdx := 0, sweeps := 2, steps := 1, stepTime := 4, stepEndTime := 9, stepOutput := 5, rampIncrement := 0, pulseWidth := 0, pulseRate := 0, timeVector := [0, 1, 2, 3], outputVector := [5, 5, 5, 5] } := by
    show Legacy.runTick Legacy.exSweepStep 1 (Legacy.runN Legacy.exSweepStep 1 3) = _
    rw [h3]
    simp only [Legacy.runTick, Legacy.segPhase, Legacy.stepPhase, Legacy.execPhase,
      Legacy.exSweepStep, Legacy.getStepD, Legacy.segAt, Legacy.numSweepsD,
      Legacy.numStepsD, ratTrunc]
    norm_num
  have h5 : Legacy.runN Legacy.exSweepStep 1 5 = { protocolMode := .EXECUTE, time := 5, output := 5, stepType := .STEP, segmentIdx := 0, sweepIdx := 0, stepIdx := 0, sweeps := 2, steps := 1, stepTime := 5, stepEndTime := 9, stepOutput := 5, rampIncrement := 0, pulseWidth := 0, pulseRate := 0, timeVector := [0, 1, 2, 3, 4], outputVector := [5, 5, 5, 5, 5] } := by
    show Legacy.runTick Legacy.exSweepStep 1 (Legacy.runN Legacy.exSweepStep 1 4) = _
    rw [h4]
    simp only [Legacy.runTick, Legacy.segPhase, Legacy.stepPhase, Legacy.execPhase,
      Legacy.exSweepStep, Legacy.getStepD, Legacy.segAt, Legacy.numSweepsD,
      Legacy.numStepsD, ratTrunc]
    norm_num
  have h6 : Legacy.runN Legacy.exSweepStep 1 6 = { protocolMode := .EXECUTE, time := 6, output := 5, stepType := .STEP, segmentIdx := 0, sweepIdx := 0, stepIdx := 0, sweeps := 2, steps := 1, stepTime := 6, stepEndTime := 9, stepOutput := 5, rampIncrement := 0, pulseWidth := 0, pulseRate := 0, timeVector := [0, 1, 2, 3, 4, 5], outputVector := [5, 5, 5, 5, 5, 5] } := by
    show Legacy.runTick Legacy.exSweepStep 1 (Legacy.runN Legacy.exSweepStep 1 5) = _
    rw [h5]
    simp only [Legacy.runTick, Legacy.segPhase, Legacy.stepPhase, Legacy.execPhase,
      Legacy.exSweepStep, Legacy.getStepD, Legacy.segAt, Legacy.numSweepsD,
      Legacy.numStepsD, ratTrunc]
    norm_num
  have h7 : Legacy.runN Legacy.exSweepStep 1 7 = { protocolMode := .EXECUTE, time := 7, output := 5, stepType := .STEP, segmentIdx := 0, sweepIdx := 0, stepIdx := 0, sweeps := 2, steps := 1, stepTime := 7, stepEndTime := 9, stepOutput := 5, rampIncrement := 0, pulseWidth := 0, pulseRate := 0, timeVector := [0, 1, 2, 3, 4, 5, 6], outputVector := [5, 5, 5, 5, 5, 5, 5] } := by
    show Legacy.runTick Legacy.exSweepStep 1 (Legacy.runN Legacy.exSweepStep 1 6) = _
    rw [h6]
    simp only [Legacy.runTick, Legacy.segPhase, Legacy.stepPhase, Legacy.execPhase,
      Legacy.exSweepStep, Legacy.getStepD, Legacy.segAt, Legacy.numSweepsD,
      Legacy.numStepsD, ratTrunc]
    norm_num
  have h8 : Legacy.runN Legacy.exSweepStep 1 8 = { protocolMode := .EXECUTE, time := 8, output := 5, stepType := .STEP, segmentIdx := 0, sweepIdx := 0, stepIdx := 0, sweeps := 2, steps := 1, stepTime := 8, stepEndTime := 9, stepOutput := 5, rampIncrement := 0, pulseWidth := 0, pulseRate := 0, timeVector := [0, 1, 2, 3, 4, 5, 6, 7], outputVector := [5, 5, 5, 5, 5, 5, 5, 5] } := by
    show Legacy.runTick Legacy.exSweepStep 1 (Legacy.runN Legacy.exSweepStep 1 7) = _
    rw [h7]
    simp only [Legacy.runTick, Legacy.segPhase, Legacy.stepPhase, Legacy.execPhase,
      Legacy.exSweepStep, Legacy.getStepD, Legacy.segAt, Legacy.numSweepsD,
      Legacy.numStepsD, ratTrunc]
    norm_num
  have h9 : Legacy.runN Legacy.exSweepStep 1 9 = { protocolMode := .EXECUTE, time := 9, output := 5, stepType := .STEP, segmentIdx := 0, sweepIdx := 0, stepIdx := 0, sweeps := 2, steps := 1, stepTime := 9, stepEndTime := 9, stepOutput := 5, rampIncrement := 0, pulseWidth := 0, pulseRate := 0, timeVector := [0, 1, 2, 3, 4, 5, 6, 7, 8], outputVector := [5, 5, 5, 5, 5, 5, 5, 5, 5] } := by
    show Legacy.runTick Legacy.exSweepStep 1 (Legacy.runN Legacy.exSweepStep 1 8) = _
    rw [h8]
    simp only [Legacy.runTick, Legacy.segPhase, Legacy.stepPhase, Legacy.execPhase,
      Legacy.exSweepStep, Legacy.getStepD, Legacy.segAt, Legacy.numSweepsD,
      Legacy.numStepsD, ratTrunc]
    norm_num
  have h10 : Legacy.runN Legacy.exSweepStep 1 10 = { protocolMode := .STEP, time := 10, output := 5, stepType := .STEP, segmentIdx := 0, sweepIdx := 1, stepIdx := 0, sweeps := 2, steps := 1, stepTime := 10, stepEndTime := 9, stepOutput := 5, rampIncrement := 0, pulseWidth := 0, pulseRate := 0, timeVector := [0, 1, 2, 3, 4, 5, 6, 7, 8, 9], outputVector := [5, 5, 5, 5, 5, 5, 5, 5, 5, 5] } := by
    show Legacy.runTick Legacy.exSweepStep 1 (Legacy.runN Legacy.exSweepStep 1 9) = _
    rw [h9]
    simp only [Legacy.runTick, Legacy.segPhase, Legacy.stepPhase, Legacy.execPhase,
      Legacy.exSweepStep, Legacy.getStepD, Legacy.segAt, Legacy.numSweepsD,
      Legacy.numStepsD, ratTrunc]
    norm_num
  have h11 : Legacy.runN Legacy.exSweepStep 1 11 = { protocolMode := .EXECUTE, time := 11, output := 6, stepType := .STEP, segmentIdx := 0, sweepIdx := 1, stepIdx := 0, sweeps := 2, steps := 1, stepTime := 1, stepEndTime := 9, stepOutput := 6, rampIncrement := 0, pulseWidth := 0, pulseRate := 0, timeVector := [0, 1, 2, 3, 4, 5, 6, 7, 8, 9, 10], outputVector := [5, 5, 5, 5, 5, 5, 5, 5, 5, 5, 6] } := by
    show Legacy.runTick Legacy.exSweepStep 1 (Legacy.runN Legacy.exSweepStep 1 10) = _
    rw [h10]
    simp only [Legacy.runTick, Legacy.segPhase, Legacy.stepPhase, Legacy.execPhase,
      Legacy.exSweepStep, Legacy.getStepD, Legacy.segAt, Legacy.numSweepsD,
      Legacy.numStepsD, ratTrunc]
    norm_num
  have h12 : Legacy.runN Legacy.exSweepStep 1 12 = { protocolMode := .EXECUTE, time := 12, output := 6, stepType := .STEP, segmentIdx := 0, sweepIdx := 1, stepIdx := 0, sweeps := 2, steps := 1, stepTime := 2, stepEndTime := 9, stepOutput := 6, rampIncrement := 0, pulseWidth := 0, pulseRate := 0, timeVector := [0, 1, 2, 3, 4, 5, 6, 7, 8, 9, 10, 11], outputVector := [5, 5, 5, 5, 5, 5, 5, 5, 5, 5, 6, 6] } := by
    show Legacy.runTick Legacy.exSweepStep 1 (Legacy.runN Legacy.exSweepStep 1 11) = _
    rw [h11]
    simp only [Legacy.runTick, Legacy.segPhase, Legacy.stepPhase, Legacy.execPhase,
      Legacy.exSweepStep, Legacy.getStepD, Legacy.segAt, Legacy.numSweepsD,
      Legacy.numStepsD, ratTrunc]
    norm_num
  have h13 : Legacy.runN Legacy.exSweepStep 1 13 = { protocolMode := .EXECUTE, time := 13, output := 6, stepType := .STEP, segmentIdx := 0, sweepIdx := 1, stepIdx := 0, sweeps := 2, steps := 1, stepTime := 3, stepEndTime := 9, stepOutput := 6, rampIncrement := 0, pulseWidth := 0, pulseRate := 0, timeVector := [0, 1, 2, 3, 4, 5, 6, 7, 8, 9, 10, 11, 12], outputVector := [5, 5, 5, 5, 5, 5, 5, 5, 5, 5, 6, 6, 6] } := by
    show Legacy.runTick Legacy.exSweepStep 1 (Legacy.runN Legacy.exSweepStep 1 12) = _
    rw [h12]
    simp only [Legacy.runTick, Legacy.segPhase, Legacy.stepPhase, Legacy.execPhase,
      Legacy.exSweepStep, Legacy.getStepD, Legacy.segAt, Legacy.numSweepsD,
      Legacy.numStepsD, ratTrunc]
    norm_num
  have h14 : Legacy.runN Legacy.exSweepStep 1 14 = { protocolMode := .EXECUTE, time := 14, output := 6, stepType := .STEP, segmentIdx := 0, sweepIdx := 1, stepIdx := 0, sweeps := 2, steps := 1, stepTime := 4, stepEndTime := 9, stepOutput := 6, rampIncrement := 0, pulseWidth := 0, pulseRate := 0, timeVector := [0, 1, 2, 3, 4, 5, 6, 7, 8, 9, 10, 11, 12, 13], outputVector := [5, 5, 5, 5, 5, 5, 5, 5, 5, 5, 6, 6, 6, 6] } := by
    show Legacy.runTick Legacy.exSweepStep 1 (Legacy.runN Legacy.exSweepStep 1 13) = _
    rw [h13]
    simp only [Legacy.runTick, Legacy.segPhase, Legacy.stepPhase, Legacy.execPhase,
      Legacy.exSweepStep, Legacy.getStepD, Legacy.segAt, Legacy.numSweepsD,
      Legacy.numStepsD, ratTrunc]
    norm_num
  have h15 : Legacy.runN Legacy.exSweepStep 1 15 = { protocolMode := .EXECUTE, time := 15, output := 6, stepType := .STEP, segmentIdx := 0, sweepIdx := 1, stepIdx := 0, sweeps := 2, steps := 1, stepTime := 5, stepEndTime := 9, stepOutput := 6, rampIncrement := 0, pulseWidth := 0, pulseRate := 0, timeVector := [0, 1, 2, 3, 4, 5, 6, 7, 8, 9, 10, 11, 12, 13, 14], outputVector := [5, 5, 5, 5, 5, 5, 5, 5, 5, 5, 6, 6, 6, 6, 6] } := by
    show Legacy.runTick Legacy.exSweepStep 1 (Legacy.runN Legacy.exSweepStep 1 14) = _
    rw [h14]
    simp only [Legacy.runTick, Legacy.segPhase, Legacy.stepPhase, Legacy.execPhase,
      Legacy.exSweepStep, Legacy.getStepD, Legacy.segAt, Legacy.numSweepsD,
      Legacy.numStepsD, ratTrunc]
    norm_num
  have h16 : Legacy.runN Legacy.exSweepStep 1 16 = { protocolMode := .EXECUTE, time := 16, output := 6, stepType := .STEP, segmentIdx := 0, sweepIdx := 1, stepIdx := 0, sweeps := 2, steps := 1, stepTime := 6, stepEndTime := 9, stepOutput := 6, rampIncrement := 0, pulseWidth := 0, pulseRate := 0, timeVector := [0, 1, 2, 3, 4, 5, 6, 7, 8, 9, 10, 11, 12, 13, 14, 15], outputVector := [5, 5, 5, 5, 5, 5, 5, 5, 5, 5, 6, 6, 6, 6, 6, 6] } := by
    show Legacy.runTick Legacy.exSweepStep 1 (Legacy.runN Legacy.exSweepStep 1 15) = _
    rw [h15]
    simp only [Legacy.runTick, Legacy.segPhase, Legacy.stepPhase, Legacy.execPhase,
      Legacy.exSweepStep, Legacy.getStepD, Legacy.segAt, Legacy.numSweepsD,
      Legacy.numStepsD, ratTrunc]
    norm_num
  have h17 : Legacy.runN Legacy.exSweepStep 1 17 = { protocolMode := .EXECUTE, time := 17, output := 6, stepType := .STEP, segmentIdx := 0, sweepIdx := 1, stepIdx := 0, sweeps := 2, steps := 1, stepTime := 7, stepEndTime := 9, stepOutput := 6, rampIncrement := 0, pulseWidth := 0, pulseRate := 0, timeVector := [0, 1, 2, 3, 4, 5, 6, 7, 8, 9, 10, 11, 12, 13, 14, 15, 16], outputVector := [5, 5, 5, 5, 5, 5, 5, 5, 5, 5, 6, 6, 6, 6, 6, 6, 6] } := by
    show Legacy.runTick Legacy.exSweepStep 1 (Legacy.runN Legacy.exSweepStep 1 16) = _
    rw [h16]
    simp only [Legacy.runTick, Legacy.segPhase, Legacy.stepPhase, Legacy.execPhase,
      Legacy.exSweepStep, Legacy.getStepD, Legacy.segAt, Legacy.numSweepsD,
      Legacy.numStepsD, ratTrunc]
    norm_num
  have h18 : Legacy.runN Legacy.exSweepStep 1 18 = { protocolMode := .EXECUTE, time := 18, output := 6, stepType := .STEP, segmentIdx := 0, sweepIdx := 1, stepIdx := 0, sweeps := 2, steps := 1, stepTime := 8, stepEndTime := 9, stepOutput := 6, rampIncrement := 0, pulseWidth := 0, pulseRate := 0, timeVector := [0, 1, 2, 3, 4, 5, 6, 7, 8, 9, 10, 11, 12, 13, 14, 15, 16, 17], outputVector := [5, 5, 5, 5, 5, 5, 5, 5, 5, 5, 6, 6, 6, 6, 6, 6, 6, 6] } := by
    show Legacy.runTick Legacy.exSweepStep 1 (Legacy.runN Legacy.exSweepStep 1 17) = _
    rw [h17]
    simp only [Legacy.runTick, Legacy.segPhase, Legacy.stepPhase, Legacy.execPhase,
      Legacy.exSweepStep, Legacy.getStepD, Legacy.segAt, Legacy.numSweepsD,
      Legacy.numStepsD, ratTrunc]
    norm_num
  have h19 : Legacy.runN Legacy.exSweepStep 1 19 = { protocolMode := .EXECUTE, time := 19, output := 6, stepType := .STEP, segmentIdx := 0, sweepIdx := 1, stepIdx := 0, sweeps := 2, steps := 1, stepTime := 9, stepEndTime := 9, stepOutput := 6, rampIncrement := 0, pulseWidth := 0, pulseRate := 0, timeVector := [0, 1, 2, 3, 4, 5, 6, 7, 8, 9, 10, 11, 12, 13, 14, 15, 16, 17, 18], outputVector := [5, 5, 5, 5, 5, 5, 5, 5, 5, 5, 6, 6, 6, 6, 6, 6, 6, 6, 6] } := by
    show Legacy.runTick Legacy.exSweepStep 1 (Legacy.runN Legacy.exSweepStep 1 18) = _
    rw [h18]
    simp only [Legacy.runTick, Legacy.segPhase, Legacy.stepPhase, Legacy.execPhase,
      Legacy.exSweepStep, Legacy.getStepD, Legacy.segAt, Legacy.numSweepsD,
      Legacy.numStepsD, ratTrunc]
    norm_num
  exact h19

/-- Explicit evaluation of the complete (20-iteration) legacy run on the
concrete scenario protocol. -/
lemma runN_exSweepStep_20 :
    Legacy.runN Legacy.exSweepStep 1 20 = { protocolMode := .END, time := 20, output := 6, stepType := .STEP, segmentIdx := 1, sweepIdx := 0, stepIdx := 0, sweeps := 2, steps := 1, stepTime := 10, stepEndTime := 9, stepOutput := 6, rampIncrement := 0, pulseWidth := 0, pulseRate := 0, timeVector := [0, 1, 2, 3, 4, 5, 6, 7, 8, 9, 10, 11, 12, 13, 14, 15, 16, 17, 18, 19], outputVector := [5, 5, 5, 5, 5, 5, 5, 5, 5, 5, 6, 6, 6, 6, 6, 6, 6, 6, 6, 6] } := by
  show Legacy.runTick Legacy.exSweepStep 1 (Legacy.runN Legacy.exSweepStep 1 19) = _
  rw [runN_exSweepStep_19]
  simp only [Legacy.runTick, Legacy.segPhase, Legacy.stepPhase, Legacy.execPhase,
    Legacy.exSweepStep, Legacy.getStepD, Legacy.segAt, Legacy.numSweepsD,
    Legacy.numStepsD, ratTrunc]
  norm_num

/-- C8 counterexample: the §8 scenario protocol run at 1 ms period completes
after exactly 20 loop iterations, and its output vector is not the claimed
9 samples of 5.0 followed by 9 samples of 6.0. -/
theorem concrete_run_not_nine_ticks :
    (Legacy.runN Legacy.exSweepStep 1 20).protocolMode = .END ∧
    Legacy.runTick Legacy.exSweepStep 1 (Legacy.runN Legacy.exSweepStep 1 20)
      = Legacy.runN Legacy.exSweepStep 1 20 ∧
    (Legacy.runN Legacy.exSweepStep 1 20).outputVector
      ≠ List.replicate 9 (5 : ℚ) ++ List.replicate 9 (6 : ℚ) := by
  rw [runN_exSweepStep_20]
  refine ⟨rfl, ?_, ?_⟩
  · norm_num [Legacy.runTick]
  · norm_num [List.replicate]

/-- C8 amended: sweep 0 produces 10 ticks of 5.0 and sweep 1 produces 10
ticks of 6.0 (`stepEndTime = 10/1 - 1 = 9` and EXECUTE fires for
`stepTime = 0..9`), after which the run reaches END. -/
theorem concrete_run_ten_ticks_per_sweep :
    (Legacy.runN Legacy.exSweepStep 1 20).outputVector
      = List.replicate 10 (5 : ℚ) ++ List.replicate 10 (6 : ℚ) ∧
    (Legacy.runN Legacy.exSweepStep 1 20).protocolMode = .END ∧
    (Legacy.runN Legacy.exSweepStep 1 19).protocolMode ≠ .END := by
  rw [runN_exSweepStep_20]
  refine ⟨by norm_num [List.replicate], rfl, ?_⟩
  rw [runN_exSweepStep_19]
  simp

/-- C2 counterexample: in `getProtocolAmplitude` the segment index is
incremented as soon as the step index exhausts, before the sweep index
exhausts: on `exTwoSeg` (segment 0 has `numSweeps = 2`) the cursor moves
from `(0,0,1)` to `(1,0,0)` on the third tick, advancing the segment while
the sweep index is still 0 < 2. -/
theorem segment_advances_before_sweep_exhausts :
    (Widget.rtFinal Widget.exTwoSeg [0, 1] (Widget.comp0 2)).map Widget.cursorOf
      = some (0, 0, 1) ∧
    (Widget.rtFinal Widget.exTwoSeg [0, 1, 2] (Widget.comp0 2)).map Widget.cursorOf
      = some (1, 0, 0) ∧
    (Widget.segAt Widget.exTwoSeg 0).numSweeps = 2 := by
  norm_num [Widget.rtFinal, Widget.rtDrive, Widget.getProtocolAmplitude, Widget.comp0,
    Widget.Protocol.numSegments, Widget.exTwoSeg, Widget.segAt, Widget.cursorOf,
    min_def]

/-- On `exUnitStep` the dryrun loop counters never move and `time_elapsed_ms`
never changes: the loop body does not update `time_elapsed_ms`, so the
step-advance condition `time_elapsed_ms > stepDuration + ...` stays false. -/
lemma dryrunStep_exUnitStep_stuck (s : Widget.DryState)
    (h1 : s.segmentIdx = 0) (h2 : s.sweepsIdx = 0) (h3 : s.stepIdx = 0)
    (h4 : s.time_elapsed_ms = 0) :
    (Widget.dryrunStep Widget.exUnitStep 1 s).segmentIdx = 0 ∧
    (Widget.dryrunStep Widget.exUnitStep 1 s).sweepsIdx = 0 ∧
    (Widget.dryrunStep Widget.exUnitStep 1 s).stepIdx = 0 ∧
    (Widget.dryrunStep Widget.exUnitStep 1 s).time_elapsed_ms = 0 := by
  obtain ⟨a, b, c, d, e, f, g⟩ := s
  simp only at h1 h2 h3 h4
  subst h1 h2 h3 h4
  norm_num [Widget.dryrunStep, Widget.exUnitStep, Widget.segAt, Widget.stepAt]

/-- The loop counters of `dryrun` on `exUnitStep` are stuck at zero for
every iteration count. -/
lemma dryrunIter_exUnitStep_stuck (n : ℕ) :
    (Widget.dryrunIter Widget.exUnitStep 1 n).segmentIdx = 0 ∧
    (Widget.dryrunIter Widget.exUnitStep 1 n).sweepsIdx = 0 ∧
    (Widget.dryrunIter Widget.exUnitStep 1 n).stepIdx = 0 ∧
    (Widget.dryrunIter Widget.exUnitStep 1 n).time_elapsed_ms = 0 := by
  induction n with
  | zero => exact ⟨rfl, rfl, rfl, rfl⟩
  | succ n ih =>
    obtain ⟨h1, h2, h3, h4⟩ := ih
    exact dryrunStep_exUnitStep_stuck _ h1 h2 h3 h4

/-- C5: `Protocol::dryrun` does not terminate on a protocol whose single
step has positive duration (1 ms) at period 1 ms: the dead `time_elapsed_ms`
variable keeps the step index at 0 forever, so the outer loop guard never
fails. -/
theorem dryrun_never_terminates_on_positive_step :
    ¬ Widget.dryrunTerminates Widget.exUnitStep 1 := by
  rintro ⟨n, hn⟩
  exact hn (by
    rw [(dryrunIter_exUnitStep_stuck n).1]
    norm_num [Widget.exUnitStep])

/-- C10: with a zero-segment protocol attached, `getProtocolAmplitude`
returns exactly 0.0 at once, and the member state — all four cursors, the
reference time, the pause flag and the FIFO token list — is returned
untouched. -/
theorem empty_protocol_returns_zero (p : Widget.Protocol) (s : Widget.CompState)
    (t : ℤ) (h : p.numSegments = 0) :
    Widget.getProtocolAmplitude p s t = .ok (0, s) := by
  simp [Widget.getProtocolAmplitude, h]

/-- C10 witness: the theorem applied to the empty protocol. -/
theorem empty_protocol_returns_zero_witness :
    Widget.Protocol.numSegments ⟨[]⟩ = 0 ∧
    Widget.getProtocolAmplitude ⟨[]⟩ (Widget.comp0 1) 0
      = .ok (0, Widget.comp0 1) :=
  ⟨rfl, empty_protocol_returns_zero ⟨[]⟩ (Widget.comp0 1) 0 rfl⟩

namespace Legacy

lemma ctrl_protocolMode (s : RunState) : (ctrl s).protocolMode = s.protocolMode := rfl

lemma segPhase_id (p : Protocol) (s : RunState) (h : s.protocolMode ≠ .SEGMENT) :
    segPhase p s = s := by
  cases hm : s.protocolMode <;> simp [segPhase, hm] <;> exact absurd hm h

lemma ctrl_segPhase_seg (p : Protocol) (s : RunState) (h : s.protocolMode = .SEGMENT) :
    ctrl (segPhase p s) =
      { ctrl s with protocolMode := .STEP,
                    sweeps := numSweepsD p s.segmentIdx,
                    steps := numStepsD p s.segmentIdx } := by
  simp [segPhase, h, ctrl]

lemma stepPhase_id (p : Protocol) (period : ℚ) (s : RunState)
    (h : s.protocolMode ≠ .STEP) : stepPhase p period s = s := by
  cases hm : s.protocolMode <;> simp [stepPhase, hm] <;> exact absurd hm h

lemma ctrl_stepPhase_step (p : Protocol) (period : ℚ) (s : RunState)
    (h : s.protocolMode = .STEP) :
    ctrl (stepPhase p period s) =
      { ctrl s with protocolMode := .EXECUTE, stepTime := 0,
                    stepEndTime := endTimeOf p period s.segmentIdx s.sweepIdx s.stepIdx } := by
  simp [stepPhase, h, ctrl, endTimeOf]

lemma execPhase_id (p : Protocol) (s : RunState) (h : s.protocolMode ≠ .EXECUTE) :
    execPhase p s = s := by
  cases hm : s.protocolMode <;> simp [execPhase, hm] <;> exact absurd hm h

lemma ctrl_execPhase_cont (p : Protocol) (s : RunState)
    (hm : s.protocolMode = .EXECUTE) (hlt : s.stepTime + 1 ≤ s.stepEndTime) :
    ctrl (execPhase p s) = { ctrl s with stepTime := s.stepTime + 1 } := by
  simp only [execPhase, hm]
  rw [if_neg (by omega)]
  simp [ctrl, hm]

lemma ctrl_execPhase_adv_step (p : Protocol) (s : RunState)
    (hm : s.protocolMode = .EXECUTE) (hge : s.stepEndTime < s.stepTime + 1)
    (hk : s.stepIdx + 1 ≠ s.steps) :
    ctrl (execPhase p s) =
      { ctrl s with protocolMode := .STEP, stepIdx := s.stepIdx + 1,
                    stepTime := s.stepTime + 1 } := by
  simp only [execPhase, hm]
  rw [if_pos (by omega), if_neg hk]
  simp [ctrl]

lemma ctrl_execPhase_adv_sweep (p : Protocol) (s : RunState)
    (hm : s.protocolMode = .EXECUTE) (hge : s.stepEndTime < s.stepTime + 1)
    (hk : s.stepIdx + 1 = s.steps) (hj : s.sweepIdx + 1 ≠ s.sweeps) :
    ctrl (execPhase p s) =
      { ctrl s with protocolMode := .STEP, stepIdx := 0,
                    sweepIdx := s.sweepIdx + 1, stepTime := s.stepTime + 1 } := by
  simp only [execPhase, hm]
  rw [if_pos (by omega), if_pos hk, if_neg hj]
  simp [ctrl]

lemma ctrl_execPhase_adv_seg (p : Protocol) (s : RunState)
    (hm : s.protocolMode = .EXECUTE) (hge : s.stepEndTime < s.stepTime + 1)
    (hk : s.stepIdx + 1 = s.steps) (hj : s.sweepIdx + 1 = s.sweeps)
    (hn : s.segmentIdx + 1 < p.segments.length) :
    ctrl (execPhase p s) =
      { ctrl s with protocolMode := .SEGMENT, stepIdx := 0, sweepIdx := 0,
                    segmentIdx := s.segmentIdx + 1, stepTime := s.stepTime + 1 } := by
  simp only [execPhase, hm]
  rw [if_pos (by omega), if_pos hk, if_pos hj, if_neg (by omega)]
  simp [ctrl]

lemma ctrl_execPhase_adv_end (p : Protocol) (s : RunState)
    (hm : s.protocolMode = .EXECUTE) (hge : s.stepEndTime < s.stepTime + 1)
    (hk : s.stepIdx + 1 = s.steps) (hj : s.sweepIdx + 1 = s.sweeps)
    (hn : p.segments.length ≤ s.segmentIdx + 1) :
    ctrl (execPhase p s) =
      { ctrl s with protocolMode := .END, stepIdx := 0, sweepIdx := 0,
                    segmentIdx := s.segmentIdx + 1, stepTime := s.stepTime + 1 } := by
  simp only [execPhase, hm]
  rw [if_pos (by omega), if_pos hk, if_pos hj, if_pos hn]
  simp [ctrl]

lemma runTick_end (p : Protocol) (period : ℚ) (s : RunState)
    (h : s.protocolMode = .END) : runTick p period s = s := by
  simp [runTick, h]

lemma ctrl_runTick (p : Protocol) (period : ℚ) (s : RunState)
    (h : s.protocolMode ≠ .END) :
    ctrl (runTick p period s) =
      ctrl (execPhase p (stepPhase p period (segPhase p s))) := by
  cases hm : s.protocolMode <;> simp [runTick, hm, ctrl] <;> exact absurd hm h

end Legacy

namespace Legacy

lemma visits_succ (p : Protocol) (period : ℚ) (n : ℕ) :
    visits p period (n + 1) = visits p period n ++ (visitAt p period n).toList :=
  rfl

lemma visitAt_of_not_entry (p : Protocol) (period : ℚ) (n : ℕ)
    (h1 : (runN p period n).protocolMode ≠ .SEGMENT)
    (h2 : (runN p period n).protocolMode ≠ .STEP) :
    visitAt p period n = none := by
  unfold visitAt
  rw [segPhase_id p _ h1]
  simp [h2]

lemma visitAt_of_entry (p : Protocol) (period : ℚ) (n i j k : ℕ)
    (h : Entry p (ctrl (runN p period n)) i j k) :
    visitAt p period n = some (i, j, k) := by
  unfold visitAt
  rcases h with ⟨hmode, hi, hjj, hkk, _, _⟩ | ⟨⟨hmode, hi, hjj, hkk⟩, hj, hk⟩
  · simp only [ctrl] at hmode hi hjj hkk
    rw [segPhase_id p _ (by simp [hmode])]
    simp [hmode, hi, hjj, hkk]
  · simp only [ctrl] at hmode hi hjj hkk
    have hc := ctrl_segPhase_seg p (runN p period n) hmode
    simp only [ctrl, Ctrl.mk.injEq] at hc
    obtain ⟨f1, f2, f3, f4, _, _, _, _⟩ := hc
    simp [f1, f2, f3, f4, hi, hjj, hkk, hj, hk]

lemma phases_entry (p : Protocol) (period : ℚ) (s : RunState) (i j k : ℕ)
    (h : Entry p (ctrl s) i j k) :
    ExecSt p (ctrl (stepPhase p period (segPhase p s))) i j k 0
      (endTimeOf p period i j k) ∧ s.protocolMode ≠ .END := by
  rcases h with ⟨hmode, hi, hjj, hkk, hsw, hst⟩ | ⟨⟨hmode, hi, hjj, hkk⟩, hj, hk⟩
  · simp only [ctrl] at hmode hi hjj hkk hsw hst
    rw [segPhase_id p s (by simp [hmode])]
    have hc := ctrl_stepPhase_step p period s hmode
    simp only [ctrl, Ctrl.mk.injEq] at hc
    obtain ⟨f1, f2, f3, f4, f5, f6, f7, f8⟩ := hc
    refine ⟨⟨f1, ?_, ?_, ?_, ?_, ?_, f7, ?_⟩, by simp [hmode]⟩
    · rw [show (ctrl (stepPhase p period s)).segmentIdx
          = (stepPhase p period s).segmentIdx from rfl, f2, hi]
    · rw [show (ctrl (stepPhase p period s)).sweepIdx
          = (stepPhase p period s).sweepIdx from rfl, f3, hjj]
    · rw [show (ctrl (stepPhase p period s)).stepIdx
          = (stepPhase p period s).stepIdx from rfl, f4, hkk]
    · rw [show (ctrl (stepPhase p period s)).sweeps
          = (stepPhase p period s).sweeps from rfl, f5, hsw]
    · rw [show (ctrl (stepPhase p period s)).steps
          = (stepPhase p period s).steps from rfl, f6, hst]
    · rw [show (ctrl (stepPhase p period s)).stepEndTime
          = (stepPhase p period s).stepEndTime from rfl, f8, hi, hjj, hkk]
  · simp only [ctrl] at hmode hi hjj hkk
    have hc := ctrl_segPhase_seg p s hmode
    simp only [ctrl, Ctrl.mk.injEq] at hc
    obtain ⟨g1, g2, g3, g4, g5, g6, _, _⟩ := hc
    have hc2 := ctrl_stepPhase_step p period (segPhase p s) g1
    simp only [ctrl, Ctrl.mk.injEq] at hc2
    obtain ⟨f1, f2, f3, f4, f5, f6, f7, f8⟩ := hc2
    subst hj hk
    refine ⟨⟨f1, ?_, ?_, ?_, ?_, ?_, f7, ?_⟩, by simp [hmode]⟩
    · rw [show (ctrl (stepPhase p period (segPhase p s))).segmentIdx
          = (stepPhase p period (segPhase p s)).segmentIdx from rfl, f2, g2, hi]
    · rw [show (ctrl (stepPhase p period (segPhase p s))).sweepIdx
          = (stepPhase p period (segPhase p s)).sweepIdx from rfl, f3, g3, hjj]
    · rw [show (ctrl (stepPhase p period (segPhase p s))).stepIdx
          = (stepPhase p period (segPhase p s)).stepIdx from rfl, f4, g4, hkk]
    · rw [show (ctrl (stepPhase p period (segPhase p s))).sweeps
          = (stepPhase p period (segPhase p s)).sweeps from rfl, f5, g5, hi]
    · rw [show (ctrl (stepPhase p period (segPhase p s))).steps
          = (stepPhase p period (segPhase p s)).steps from rfl, f6, g6, hi]
    · rw [show (ctrl (stepPhase p period (segPhase p s))).stepEndTime
          = (stepPhase p period (segPhase p s)).stepEndTime from rfl, f8, g2, g3,
        g4, hi, hjj, hkk]

end Legacy

namespace Legacy

lemma execPhase_execSt (p : Protocol) (u : RunState) (i j k : ℕ) (t E : ℤ)
    (h : ExecSt p (ctrl u) i j k t E) (hcont : t + 1 ≤ E) :
    ExecSt p (ctrl (execPhase p u)) i j k (t + 1) E := by
  obtain ⟨hmode, hi, hjj, hkk, hsw, hst, ht, hE⟩ := h
  simp only [ctrl] at hmode hi hjj hkk hsw hst ht hE
  have hc := ctrl_execPhase_cont p u hmode (by omega)
  simp only [ctrl, Ctrl.mk.injEq] at hc
  obtain ⟨f1, f2, f3, f4, f5, f6, f7, f8⟩ := hc
  exact ⟨f1.trans hmode, f2.trans hi, f3.trans hjj, f4.trans hkk, f5.trans hsw,
    f6.trans hst, by rw [show (ctrl (execPhase p u)).stepTime
      = (execPhase p u).stepTime from rfl, f7, ht],
    f8.trans hE⟩

lemma execPhase_afterStep (p : Protocol) (u : RunState) (i j k : ℕ) (t E : ℤ)
    (h : ExecSt p (ctrl u) i j k t E) (hadv : E < t + 1) (hv : Valid p i j k) :
    AfterStep p (ctrl (execPhase p u)) i j k := by
  obtain ⟨hmode, hi, hjj, hkk, hsw, hst, ht, hE⟩ := h
  simp only [ctrl] at hmode hi hjj hkk hsw hst ht hE
  obtain ⟨hvi, hvj, hvk⟩ := hv
  by_cases h1 : k + 1 < numStepsD p i
  · have hc := ctrl_execPhase_adv_step p u hmode (by omega)
      (by rw [hkk, hst]; omega)
    simp only [ctrl, Ctrl.mk.injEq] at hc
    obtain ⟨f1, f2, f3, f4, f5, f6, _, _⟩ := hc
    unfold AfterStep
    rw [if_pos h1]
    exact ⟨f1, f2.trans hi, f3.trans hjj, by rw [show (ctrl (execPhase p u)).stepIdx
        = (execPhase p u).stepIdx from rfl, f4, hkk],
      f5.trans hsw, f6.trans hst⟩
  · have hk1 : k + 1 = numStepsD p i := by omega
    by_cases h2 : j + 1 < numSweepsD p i
    · have hc := ctrl_execPhase_adv_sweep p u hmode (by omega)
        (by rw [hkk, hst]; omega) (by rw [hjj, hsw]; omega)
      simp only [ctrl, Ctrl.mk.injEq] at hc
      obtain ⟨f1, f2, f3, f4, f5, f6, _, _⟩ := hc
      unfold AfterStep AfterSweep
      rw [if_neg h1, if_pos h2]
      exact ⟨f1, f2.trans hi, by rw [show (ctrl (execPhase p u)).sweepIdx
          = (execPhase p u).sweepIdx from rfl, f3, hjj],
        f4, f5.trans hsw, f6.trans hst⟩
    · have hj1 : j + 1 = numSweepsD p i := by omega
      by_cases h3 : i + 1 < p.segments.length
      · have hc := ctrl_execPhase_adv_seg p u hmode (by omega)
          (by rw [hkk, hst]; omega) (by rw [hjj, hsw]; omega) (by rw [hi]; omega)
        simp only [ctrl, Ctrl.mk.injEq] at hc
        obtain ⟨f1, f2, f3, f4, _, _, _, _⟩ := hc
        unfold AfterStep AfterSweep AfterSegment
        rw [if_neg h1, if_neg h2, if_pos h3]
        exact ⟨f1, by rw [show (ctrl (execPhase p u)).segmentIdx
            = (execPhase p u).segmentIdx from rfl, f2, hi], f3, f4⟩
      · have hc := ctrl_execPhase_adv_end p u hmode (by omega)
          (by rw [hkk, hst]; omega) (by rw [hjj, hsw]; omega) (by rw [hi]; omega)
        simp only [ctrl, Ctrl.mk.injEq] at hc
        obtain ⟨f1, _, _, _, _, _, _, _⟩ := hc
        unfold AfterStep AfterSweep AfterSegment
        rw [if_neg h1, if_neg h2, if_neg h3]
        exact f1

lemma runTick_exec_ctrl (p : Protocol) (period : ℚ) (s : RunState)
    (hmode : s.protocolMode = .EXECUTE) :
    ctrl (runTick p period s) = ctrl (execPhase p s) := by
  rw [ctrl_runTick p period s (by simp [hmode]),
    segPhase_id p s (by simp [hmode]),
    stepPhase_id p period s (by simp [hmode])]

lemma exec_burn (p : Protocol) (period : ℚ) (i j k : ℕ) (E : ℤ)
    (hv : Valid p i j k) :
    ∀ (r n : ℕ) (t : ℤ), ExecSt p (ctrl (runN p period n)) i j k t E →
      t + r = E →
      AfterStep p (ctrl (runN p period (n + r + 1))) i j k ∧
      visits p period (n + r + 1) = visits p period n := by
  intro r
  induction r with
  | zero =>
    intro n t h ht
    have hmode : (runN p period n).protocolMode = .EXECUTE := h.1
    have hvis : visitAt p period n = none :=
      visitAt_of_not_entry p period n (by simp [hmode]) (by simp [hmode])
    constructor
    · show AfterStep p (ctrl (runTick p period (runN p period n))) i j k
      rw [runTick_exec_ctrl p period _ hmode]
      exact execPhase_afterStep p _ i j k t E h (by omega) hv
    · rw [show n + 0 + 1 = n + 1 from by omega, visits_succ, hvis]
      simp
  | succ r ih =>
    intro n t h ht
    have hmode : (runN p period n).protocolMode = .EXECUTE := h.1
    have hvis : visitAt p period n = none :=
      visitAt_of_not_entry p period n (by simp [hmode]) (by simp [hmode])
    have h1 : ExecSt p (ctrl (runN p period (n + 1))) i j k (t + 1) E := by
      show ExecSt p (ctrl (runTick p period (runN p period n))) i j k (t + 1) E
      rw [runTick_exec_ctrl p period _ hmode]
      exact execPhase_execSt p _ i j k t E h (by push_cast at ht; omega)
    obtain ⟨ha, hvv⟩ := ih (n + 1) (t + 1) h1 (by push_cast at ht ⊢; omega)
    refine ⟨?_, ?_⟩
    · rw [show n + (r + 1) + 1 = n + 1 + r + 1 from by omega]
      exact ha
    · rw [show n + (r + 1) + 1 = n + 1 + r + 1 from by omega, hvv, visits_succ,
        hvis]
      simp

end Legacy

namespace Legacy

lemma numStepsD_pos (p : Protocol) (hst : ∀ seg ∈ p.segments, seg.steps ≠ [])
    (i : ℕ) (hi : i < p.segments.length) : 0 < numStepsD p i := by
  unfold numStepsD segAt
  rw [List.getD_eq_get p.segments default hi]
  have hmem := List.get_mem p.segments i hi
  have := hst _ hmem
  cases hget : (p.segments.get ⟨i, hi⟩).steps with
  | nil => rw [hget] at this; exact absurd rfl this
  | cons a l => simp [hget]

lemma numSweepsD_pos (p : Protocol) (hsw : ∀ seg ∈ p.segments, 1 ≤ seg.numSweeps)
    (i : ℕ) (hi : i < p.segments.length) : 1 ≤ numSweepsD p i := by
  unfold numSweepsD segAt
  rw [List.getD_eq_get p.segments default hi]
  exact hsw _ (List.get_mem p.segments i hi)

lemma run_step_block (p : Protocol) (period : ℚ) (n i j k : ℕ)
    (h : Entry p (ctrl (runN p period n)) i j k) (hv : Valid p i j k) :
    ∃ T, 1 ≤ T ∧ AfterStep p (ctrl (runN p period (n + T))) i j k ∧
      visits p period (n + T) = visits p period n ++ [(i, j, k)] := by
  have hvis : visitAt p period n = some (i, j, k) := visitAt_of_entry p period n i j k h
  obtain ⟨hu, hend⟩ := phases_entry p period (runN p period n) i j k h
  by_cases hE : endTimeOf p period i j k ≤ 0
  · refine ⟨1, le_refl 1, ?_, ?_⟩
    · show AfterStep p (ctrl (runTick p period (runN p period n))) i j k
      rw [ctrl_runTick p period _ hend]
      exact execPhase_afterStep p _ i j k 0 _ hu (by omega) hv
    · rw [visits_succ, hvis]
      rfl
  · have h1 : ExecSt p (ctrl (runN p period (n + 1))) i j k 1
        (endTimeOf p period i j k) := by
      show ExecSt p (ctrl (runTick p period (runN p period n))) i j k 1 _
      rw [ctrl_runTick p period _ hend]
      exact execPhase_execSt p _ i j k 0 _ hu (by omega)
    have hv1 : visits p period (n + 1) = visits p period n ++ [(i, j, k)] := by
      rw [visits_succ, hvis]
      rfl
    obtain ⟨ha, hvv⟩ := exec_burn p period i j k (endTimeOf p period i j k) hv
      (endTimeOf p period i j k - 1).toNat (n + 1) 1 h1 (by omega)
    refine ⟨1 + (endTimeOf p period i j k - 1).toNat + 1, by omega, ?_, ?_⟩
    · rw [show n + (1 + (endTimeOf p period i j k - 1).toNat + 1)
          = n + 1 + (endTimeOf p period i j k - 1).toNat + 1 from by omega]
      exact ha
    · rw [show n + (1 + (endTimeOf p period i j k - 1).toNat + 1)
          = n + 1 + (endTimeOf p period i j k - 1).toNat + 1 from by omega,
        hvv, hv1]

lemma run_steps_chain (p : Protocol) (period : ℚ) :
    ∀ (d n i j k : ℕ), 1 ≤ d → k + d = numStepsD p i →
      i < p.segments.length → j < numSweepsD p i →
      Entry p (ctrl (runN p period n)) i j k →
      ∃ T, 1 ≤ T ∧
        visits p period (n + T) = visits p period n
          ++ (List.range' k d).map (fun x => (i, j, x)) ∧
        AfterSweep p (ctrl (runN p period (n + T))) i j := by
  intro d
  induction d with
  | zero => intro n i j k hd; omega
  | succ d ih =>
    intro n i j k _ hkd hi hj hE
    have hv : Valid p i j k := ⟨hi, hj, by omega⟩
    obtain ⟨T0, hT0, hafter, hvis⟩ := run_step_block p period n i j k hE hv
    by_cases hlast : k + 1 < numStepsD p i
    · have hE' : Entry p (ctrl (runN p period (n + T0))) i j (k + 1) := by
        left
        have := hafter
        unfold AfterStep at this
        rwa [if_pos hlast] at this
      obtain ⟨T1, hT1, hvis1, hsw⟩ := ih (n + T0) i j (k + 1) (by omega) (by omega)
        hi hj hE'
      refine ⟨T0 + T1, by omega, ?_, ?_⟩
      · rw [show n + (T0 + T1) = n + T0 + T1 from by omega, hvis1, hvis,
          List.range'_succ k d 1]
        simp
      · rw [show n + (T0 + T1) = n + T0 + T1 from by omega]
        exact hsw
    · have hd0 : d = 0 := by omega
      subst hd0
      refine ⟨T0, hT0, ?_, ?_⟩
      · rw [hvis]
        rfl
      · have := hafter
        unfold AfterStep at this
        rwa [if_neg hlast] at this

lemma run_sweeps_chain (p : Protocol) (period : ℚ) :
    ∀ (e n i j : ℕ), 1 ≤ e → j + e = numSweepsD p i →
      i < p.segments.length → 0 < numStepsD p i →
      Entry p (ctrl (runN p period n)) i j 0 →
      ∃ T, 1 ≤ T ∧
        visits p period (n + T) = visits p period n
          ++ (List.range' j e).flatMap
              (fun y => (List.range (numStepsD p i)).map (fun x => (i, y, x))) ∧
        AfterSegment p (ctrl (runN p period (n + T))) i := by
  intro e
  induction e with
  | zero => intro n i j he; omega
  | succ e ih =>
    intro n i j _ hje hi hM hE
    have hj : j < numSweepsD p i := by omega
    obtain ⟨T0, hT0, hvis0, hAS⟩ := run_steps_chain p period (numStepsD p i) n i j 0
      (by omega) (by omega) hi hj hE
    by_cases hlast : j + 1 < numSweepsD p i
    · have hE' : Entry p (ctrl (runN p period (n + T0))) i (j + 1) 0 := by
        left
        have := hAS
        unfold AfterSweep at this
        rwa [if_pos hlast] at this
      obtain ⟨T1, hT1, hvis1, hseg⟩ := ih (n + T0) i (j + 1) (by omega) (by omega)
        hi hM hE'
      refine ⟨T0 + T1, by omega, ?_, ?_⟩
      · rw [show n + (T0 + T1) = n + T0 + T1 from by omega, hvis1, hvis0,
          List.range'_succ j e 1, List.flatMap_cons, List.range_eq_range']
        simp
      · rw [show n + (T0 + T1) = n + T0 + T1 from by omega]
        exact hseg
    · have he0 : e = 0 := by omega
      subst he0
      refine ⟨T0, hT0, ?_, ?_⟩
      · rw [hvis0]
        simp [List.range_eq_range', List.range'_succ]
      · have := hAS
        unfold AfterSweep at this
        rwa [if_neg hlast] at this

lemma run_segments_chain (p : Protocol) (period : ℚ)
    (hst : ∀ seg ∈ p.segments, seg.steps ≠ [])
    (hsw : ∀ seg ∈ p.segments, 1 ≤ seg.numSweeps) :
    ∀ (f n i : ℕ), 1 ≤ f → i + f = p.segments.length →
      Entry p (ctrl (runN p period n)) i 0 0 →
      ∃ T, visits p period (n + T) = visits p period n
          ++ (List.range' i f).flatMap
              (fun x => (List.range (numSweepsD p x)).flatMap
                (fun y => (List.range (numStepsD p x)).map (fun z => (x, y, z)))) ∧
        (runN p period (n + T)).protocolMode = .END := by
  intro f
  induction f with
  | zero => intro n i hf; omega
  | succ f ih =>
    intro n i _ hif hE
    have hi : i < p.segments.length := by omega
    obtain ⟨T0, hT0, hvis0, hend⟩ := run_sweeps_chain p period (numSweepsD p i) n i 0
      (numSweepsD_pos p hsw i hi) (by omega) hi (numStepsD_pos p hst i hi) hE
    by_cases hlast : i + 1 < p.segments.length
    · have hE' : Entry p (ctrl (runN p period (n + T0))) (i + 1) 0 0 := by
        right
        refine ⟨?_, rfl, rfl⟩
        have := hend
        unfold AfterSegment at this
        rwa [if_pos hlast] at this
      obtain ⟨T1, hvis1, hEND⟩ := ih (n + T0) (i + 1) (by omega) (by omega) hE'
      refine ⟨T0 + T1, ?_, ?_⟩
      · rw [show n + (T0 + T1) = n + T0 + T1 from by omega, hvis1, hvis0,
          List.range'_succ i f 1, List.flatMap_cons]
        simp [List.range_eq_range']
      · rw [show n + (T0 + T1) = n + T0 + T1 from by omega]
        exact hEND
    · have hf0 : f = 0 := by omega
      subst hf0
      refine ⟨T0, ?_, ?_⟩
      · rw [hvis0]
        simp [List.range_eq_range', List.range'_succ]
      · have := hend
        unfold AfterSegment at this
        rw [if_neg hlast] at this
        exact this

end Legacy

/-- C2 amended: the legacy per-tick sequencer `Protocol::run` advances its
cursors strictly innermost-first, and consequently, for every runnable
protocol (non-empty, every segment with at least one step and one sweep) and
positive period, the run reaches END after finitely many ticks having
step-initialised every step of every sweep of every segment exactly once, in
segment-major, sweep-next, step-minor order.  (The current real-time path
`Component::getProtocolAmplitude` does not satisfy this order — see the
counterexample theorem.) -/
theorem run_visits_every_step_in_order (p : Legacy.Protocol) (period : ℚ)
    (hper : 0 < period) (hne : p.segments ≠ [])
    (hst : ∀ seg ∈ p.segments, seg.steps ≠ [])
    (hsw : ∀ seg ∈ p.segments, 1 ≤ seg.numSweeps) :
    ∃ N, (Legacy.runN p period N).protocolMode = .END ∧
      Legacy.visits p period N = Legacy.specVisitOrder p := by
  have hlen : 1 ≤ p.segments.length := List.length_pos.mpr hne
  have hE0 : Legacy.Entry p (Legacy.ctrl (Legacy.runN p period 0)) 0 0 0 :=
    Or.inr ⟨⟨rfl, rfl, rfl, rfl⟩, rfl, rfl⟩
  obtain ⟨T, hvis, hEND⟩ := Legacy.run_segments_chain p period hst hsw
    p.segments.length 0 0 hlen (by omega) hE0
  refine ⟨T, by rwa [show (0 + T : ℕ) = T from by omega] at hEND, ?_⟩
  rw [show (0 + T : ℕ) = T from by omega] at hvis
  rw [hvis]
  simp [Legacy.visits, Legacy.specVisitOrder, List.range_eq_range']

/-- C2 amended witness: the order theorem applied to the two-sweep scenario
protocol at 1 ms period. -/
theorem run_visits_every_step_in_order_witness :
    (0 : ℚ) < 1 ∧ Legacy.exSweepStep.segments ≠ [] ∧
    (∀ seg ∈ Legacy.exSweepStep.segments, seg.steps ≠ []) ∧
    (∀ seg ∈ Legacy.exSweepStep.segments, 1 ≤ seg.numSweeps) ∧
    (∃ N, (Legacy.runN Legacy.exSweepStep 1 N).protocolMode = .END ∧
      Legacy.visits Legacy.exSweepStep 1 N
        = Legacy.specVisitOrder Legacy.exSweepStep) := by
  refine ⟨by norm_num, by simp [Legacy.exSweepStep], by simp [Legacy.exSweepStep],
    by simp [Legacy.exSweepStep], ?_⟩
  exact run_visits_every_step_in_order Legacy.exSweepStep 1 (by norm_num)
    (by simp [Legacy.exSweepStep]) (by simp [Legacy.exSweepStep])
    (by simp [Legacy.exSweepStep])

namespace Legacy

lemma afterStep_progress (p : Protocol) (c : Ctrl) (i j k : ℕ)
    (h : AfterStep p c i j k) :
    c.protocolMode ≠ .EXECUTE ∧
      (c.protocolMode = .END ∨ (c.segmentIdx, c.sweepIdx, c.stepIdx) ≠ (i, j, k)) := by
  unfold AfterStep AfterSweep AfterSegment at h
  split_ifs at h with h1 h2 h3
  · obtain ⟨hm, hi, hj, hk, _, _⟩ := h
    exact ⟨by simp [hm], Or.inr (by simp [hi, hj, hk])⟩
  · obtain ⟨hm, hi, hj, hk, _, _⟩ := h
    exact ⟨by simp [hm], Or.inr (by simp [hi, hj, hk])⟩
  · obtain ⟨hm, hi, hj, hk⟩ := h
    exact ⟨by simp [hm], Or.inr (by simp [hi, hj, hk])⟩
  · exact ⟨by simp [h], Or.inl h⟩

end Legacy

/-- C6 amended: the legacy runner performs no degenerate-duration check.
From any step entry whose computed `stepEndTimeTicks` is ≤ 0, step
initialisation still sets `protocolMode = EXECUTE` (with `stepEndTime` the
degenerate value that the RAMP/CURVE slope is divided by), and the very same
loop iteration then executes one tick of the step and moves on: afterwards
the mode is no longer EXECUTE and either the run has ended or the cursor
triple has advanced — the runner neither refuses the step nor loops on
it. -/
theorem degenerate_step_executes_one_tick (p : Legacy.Protocol) (period : ℚ)
    (s : Legacy.RunState) (i j k : ℕ)
    (hE : Legacy.Entry p (Legacy.ctrl s) i j k) (hv : Legacy.Valid p i j k)
    (hdeg : Legacy.endTimeOf p period i j k ≤ 0) :
    (Legacy.stepPhase p period (Legacy.segPhase p s)).protocolMode = .EXECUTE ∧
    (Legacy.stepPhase p period (Legacy.segPhase p s)).stepEndTime
      = Legacy.endTimeOf p period i j k ∧
    (Legacy.runTick p period s).protocolMode ≠ .EXECUTE ∧
    ((Legacy.runTick p period s).protocolMode = .END ∨
      Legacy.cursor (Legacy.runTick p period s) ≠ (i, j, k)) := by
  obtain ⟨hu, hend⟩ := Legacy.phases_entry p period s i j k hE
  have hAS : Legacy.AfterStep p (Legacy.ctrl (Legacy.runTick p period s)) i j k := by
    rw [Legacy.ctrl_runTick p period s hend]
    exact Legacy.execPhase_afterStep p _ i j k 0 _ hu (by omega) hv
  obtain ⟨hne, hprog⟩ := Legacy.afterStep_progress p _ i j k hAS
  exact ⟨hu.1, hu.2.2.2.2.2.2.2, hne, hprog⟩

/-- C6 amended witness: the amended theorem applied at the concrete
degenerate input (RAMP step of one period's duration). -/
theorem degenerate_step_executes_one_tick_witness :
    Legacy.Entry Legacy.exUnitRamp (Legacy.ctrl Legacy.runInit) 0 0 0 ∧
    Legacy.Valid Legacy.exUnitRamp 0 0 0 ∧
    Legacy.endTimeOf Legacy.exUnitRamp 1 0 0 0 ≤ 0 ∧
    ((Legacy.stepPhase Legacy.exUnitRamp 1
        (Legacy.segPhase Legacy.exUnitRamp Legacy.runInit)).protocolMode
      = .EXECUTE ∧
     (Legacy.stepPhase Legacy.exUnitRamp 1
        (Legacy.segPhase Legacy.exUnitRamp Legacy.runInit)).stepEndTime
      = Legacy.endTimeOf Legacy.exUnitRamp 1 0 0 0 ∧
     (Legacy.runTick Legacy.exUnitRamp 1 Legacy.runInit).protocolMode ≠ .EXECUTE ∧
     ((Legacy.runTick Legacy.exUnitRamp 1 Legacy.runInit).protocolMode = .END ∨
       Legacy.cursor (Legacy.runTick Legacy.exUnitRamp 1 Legacy.runInit)
         ≠ (0, 0, 0))) := by
  have h1 : Legacy.Entry Legacy.exUnitRamp (Legacy.ctrl Legacy.runInit) 0 0 0 :=
    Or.inr ⟨⟨rfl, rfl, rfl, rfl⟩, rfl, rfl⟩
  have h2 : Legacy.Valid Legacy.exUnitRamp 0 0 0 := by
    refine ⟨by simp [Legacy.exUnitRamp], ?_, ?_⟩ <;>
      norm_num [Legacy.exUnitRamp, Legacy.numSweepsD, Legacy.numStepsD, Legacy.segAt]
  have h3 : Legacy.endTimeOf Legacy.exUnitRamp 1 0 0 0 ≤ 0 := by
    norm_num [Legacy.endTimeOf, Legacy.exUnitRamp, Legacy.getStepD, Legacy.segAt,
      ratTrunc]
  exact ⟨h1, h2, h3,
    degenerate_step_executes_one_tick Legacy.exUnitRamp 1 Legacy.runInit 0 0 0 h1 h2 h3⟩
